import Mathlib

/-!
Verification of the ppp crate (HAProxy PROXY protocol parser/builder).

The development shallowly embeds the crate's v1 (text) and v2 (binary)
header parsers, the TLV iterator, and the v2 builder over byte lists
(`List Nat`, each entry a byte value), and proves or refutes the
specification claims about them.
-/

set_option maxHeartbeats 1000000
set_option maxRecDepth 10000

instance {ε α : Type} [DecidableEq ε] [DecidableEq α] : DecidableEq (Except ε α) := fun x y =>
  match x, y with
  | .ok a, .ok b => if h : a = b then .isTrue (by rw [h]) else .isFalse (by simp [h])
  | .ok _, .error _ => .isFalse (by simp)
  | .error _, .ok _ => .isFalse (by simp)
  | .error e, .error f => if h : e = f then .isTrue (by rw [h]) else .isFalse (by simp [h])

namespace Ppp

/-- Rust slice indexing `l[a..b]`: the bytes at indices in `[a, b)`. -/
def slice (l : List Nat) (a b : Nat) : List Nat := (l.take b).drop a

/-- `u16::from_be_bytes([a, b])`: big-endian 16-bit value of two bytes. -/
def u16_from_be (a b : Nat) : Nat := a * 256 + b

namespace V2

/-- `PROTOCOL_PREFIX`: the 12-byte v2 signature `\r\n\r\n\0\r\nQUIT\n`. -/
def PROTOCOL_PREFIX : List Nat := [13, 10, 13, 10, 0, 13, 10, 81, 85, 73, 84, 10]

/-- `MINIMUM_LENGTH`: minimum byte length of a v2 header. -/
def MINIMUM_LENGTH : Nat := 16

/-- `MINIMUM_TLV_LENGTH`: minimum byte length of a TLV record. -/
def MINIMUM_TLV_LENGTH : Nat := 3

/-- Offset of the version/command byte. -/
def VERSION_COMMAND : Nat := 12

/-- Offset of the address-family/protocol byte. -/
def ADDRESS_FAMILY_PROTOCOL : Nat := 13

/-- Offset of the big-endian length field. -/
def LENGTH : Nat := 14

/-- Required byte count of an IPv4 address block. -/
def IPV4_ADDRESSES_BYTES : Nat := 12

/-- Required byte count of an IPv6 address block. -/
def IPV6_ADDRESSES_BYTES : Nat := 36

/-- Required byte count of a Unix address block. -/
def UNIX_ADDRESSES_BYTES : Nat := 216

/-- `v2::Version`. -/
inductive Version where
  | Two
deriving DecidableEq, Repr

/-- `v2::Command`. -/
inductive Command where
  | Local
  | Proxy
deriving DecidableEq, Repr

/-- `v2::AddressFamily`. -/
inductive AddressFamily where
  | Unspecified
  | IPv4
  | IPv6
  | Unix
deriving DecidableEq, Repr

/-- `v2::Protocol`. -/
inductive Protocol where
  | Unspecified
  | Stream
  | Datagram
deriving DecidableEq, Repr

/-- `ip::IPv4` as used by the v2 parser: two IPv4 addresses (4 octets each)
and two 16-bit ports. -/
structure IPv4 where
  source_address : List Nat
  destination_address : List Nat
  source_port : Nat
  destination_port : Nat
deriving DecidableEq, Repr

/-- `ip::IPv6` as used by the v2 parser: two IPv6 addresses (16 octets each)
and two 16-bit ports. -/
structure IPv6 where
  source_address : List Nat
  destination_address : List Nat
  source_port : Nat
  destination_port : Nat
deriving DecidableEq, Repr

/-- `v2::Unix`: two 108-byte socket paths. -/
structure Unix where
  source : List Nat
  destination : List Nat
deriving DecidableEq, Repr

/-- `v2::Addresses`. -/
inductive Addresses where
  | Unspecified
  | IPv4 (a : IPv4)
  | IPv6 (a : IPv6)
  | Unix (a : Unix)
deriving DecidableEq, Repr

/-- `v2::ParseError`.  The variants `Partial`, `InvalidAddresses` and
`Leftovers` are constructed in `v2/mod.rs` and `v2/model.rs`; the stale
`v2/error.rs` in the snapshot predates them, so their payloads follow
those construction sites. -/
inductive ParseError where
  | Incomplete (len : Nat)
  | Prefix
  | Version (v : Nat)
  | Command (c : Nat)
  | AddressFamily (a : Nat)
  | Protocol (p : Nat)
  | InvalidAddresses (declared : Nat) (required : Nat)
  | Partial (declared : Nat) (got : Nat)
  | InvalidTLV (kind : Nat) (len : Nat)
  | Leftovers (bytes : Nat)
deriving DecidableEq, Repr

/-- Modelled from the spec: `v2::ParseError::is_incomplete` is not present in
the snapshot's `v2/error.rs`; per spec section 4.B the incomplete cases for v2
are exactly `Incomplete` and `Partial`. -/
def ParseError.is_incomplete : ParseError → Bool
  | .Incomplete _ => true
  | .Partial _ _ => true
  | _ => false

/-- `AddressFamily::byte_length`. -/
def AddressFamily.byte_length : AddressFamily → Option Nat
  | .IPv4 => some IPV4_ADDRESSES_BYTES
  | .IPv6 => some IPV6_ADDRESSES_BYTES
  | .Unix => some UNIX_ADDRESSES_BYTES
  | .Unspecified => none

/-- `Addresses::address_family`. -/
def Addresses.address_family : Addresses → AddressFamily
  | .Unspecified => .Unspecified
  | .IPv4 _ => .IPv4
  | .IPv6 _ => .IPv6
  | .Unix _ => .Unix

/-- `v2::Header`: the borrowed frame bytes plus the parsed fields. -/
structure Header where
  header : List Nat
  version : Version
  command : Command
  protocol : Protocol
  addresses : Addresses
deriving DecidableEq, Repr

/-- The first arm of `TryFrom`: `input[12] & 0xF0` must be `0x20`. -/
def parseVersion (b : Nat) : Except ParseError Version :=
  match b &&& 0xF0 with
  | 0x20 => .ok .Two
  | v => .error (.Version v)

/-- `input[12] & 0x0F` must be `0` (Local) or `1` (Proxy). -/
def parseCommand (b : Nat) : Except ParseError Command :=
  match b &&& 0x0F with
  | 0x00 => .ok .Local
  | 0x01 => .ok .Proxy
  | c => .error (.Command c)

/-- `input[13] & 0xF0` selects the address family. -/
def parseAddressFamily (b : Nat) : Except ParseError AddressFamily :=
  match b &&& 0xF0 with
  | 0x00 => .ok .Unspecified
  | 0x10 => .ok .IPv4
  | 0x20 => .ok .IPv6
  | 0x30 => .ok .Unix
  | a => .error (.AddressFamily a)

/-- `input[13] & 0x0F` selects the transport protocol. -/
def parseProtocol (b : Nat) : Except ParseError Protocol :=
  match b &&& 0x0F with
  | 0x00 => .ok .Unspecified
  | 0x01 => .ok .Stream
  | 0x02 => .ok .Datagram
  | p => .error (.Protocol p)

/-- `v2::parse_addresses`.  The Rust function can panic: indexing panics when
the payload is shorter than the family needs (under 12 bytes for IPv4, under
36 for IPv6), and for `Unix` the call
`destination[..].copy_from_slice(&bytes[108..])` into a 108-byte array panics
on a length mismatch unless the payload is exactly 216 bytes.  A panic is
modelled as `none`. -/
def parse_addresses (address_family : AddressFamily) (bytes : List Nat) :
    Option Addresses :=
  match address_family with
  | .Unspecified => some .Unspecified
  | .IPv4 =>
      if bytes.length < 12 then none
      else some (.IPv4 {
        source_address := slice bytes 0 4,
        destination_address := slice bytes 4 8,
        source_port := u16_from_be (bytes.getD 8 0) (bytes.getD 9 0),
        destination_port := u16_from_be (bytes.getD 10 0) (bytes.getD 11 0) })
  | .IPv6 =>
      if bytes.length < 36 then none
      else some (.IPv6 {
        source_address := slice bytes 0 16,
        destination_address := slice bytes 16 32,
        source_port := u16_from_be (bytes.getD 32 0) (bytes.getD 33 0),
        destination_port := u16_from_be (bytes.getD 34 0) (bytes.getD 35 0) })
  | .Unix =>
      if bytes.length = 216 then
        some (.Unix { source := slice bytes 0 108, destination := bytes.drop 108 })
      else none

/-- `impl TryFrom<&[u8]> for v2::Header`.  A `none` result models a panic
propagating out of `parse_addresses` (reachable for a Unix frame whose
declared length exceeds 216); `some` wraps the Rust return value. -/
def try_from (input : List Nat) : Option (Except ParseError Header) :=
  if input.length < MINIMUM_LENGTH then some (.error (.Incomplete input.length))
  else if input.take VERSION_COMMAND ≠ PROTOCOL_PREFIX then some (.error .Prefix)
  else
    match parseVersion (input.getD VERSION_COMMAND 0) with
    | .error e => some (.error e)
    | .ok version =>
    match parseCommand (input.getD VERSION_COMMAND 0) with
    | .error e => some (.error e)
    | .ok command =>
    match parseAddressFamily (input.getD ADDRESS_FAMILY_PROTOCOL 0) with
    | .error e => some (.error e)
    | .ok address_family =>
    match parseProtocol (input.getD ADDRESS_FAMILY_PROTOCOL 0) with
    | .error e => some (.error e)
    | .ok protocol =>
      let length := u16_from_be (input.getD LENGTH 0) (input.getD (LENGTH + 1) 0)
      let address_family_bytes := address_family.byte_length.getD 0
      if length < address_family_bytes then
        some (.error (.InvalidAddresses length address_family_bytes))
      else
        let full_length := MINIMUM_LENGTH + length
        if input.length < full_length then
          some (.error (.Partial length (input.length - MINIMUM_LENGTH)))
        else
          let header := input.take full_length
          match parse_addresses address_family (header.drop MINIMUM_LENGTH) with
          | none => none
          | some addresses => some (.ok { header, version, command, protocol, addresses })

/-- `Header::length`: payload byte count. -/
def Header.length (h : Header) : Nat := (h.header.drop MINIMUM_LENGTH).length

/-- `Header::len`: total byte count. -/
def Header.len (h : Header) : Nat := h.header.length

/-- `Header::address_family`. -/
def Header.address_family (h : Header) : AddressFamily := h.addresses.address_family

/-- `Header::address_bytes_end`. -/
def Header.address_bytes_end (h : Header) : Nat :=
  MINIMUM_LENGTH + min (h.address_family.byte_length.getD h.length) h.length

/-- `Header::address_bytes`. -/
def Header.address_bytes (h : Header) : List Nat :=
  slice h.header MINIMUM_LENGTH h.address_bytes_end

/-- `Header::tlv_bytes`. -/
def Header.tlv_bytes (h : Header) : List Nat := h.header.drop h.address_bytes_end

/-- `v2::TypeLengthValue`. -/
structure TypeLengthValue where
  kind : Nat
  value : List Nat
deriving DecidableEq, Repr

/-- `v2::TypeLengthValues`: the TLV cursor state. -/
structure TypeLengthValues where
  bytes : List Nat
  offset : Nat
deriving DecidableEq, Repr

/-- `Header::tlvs`. -/
def Header.tlvs (h : Header) : TypeLengthValues := { bytes := h.tlv_bytes, offset := 0 }

/-- `Iterator::next` for `TypeLengthValues`, returning the yielded item and
the successor state. -/
def TypeLengthValues.next (s : TypeLengthValues) :
    Option (Except ParseError TypeLengthValue × TypeLengthValues) :=
  if s.offset ≥ s.bytes.length then none
  else
    let remaining := s.bytes.drop s.offset
    if remaining.length < MINIMUM_TLV_LENGTH then
      some (.error (.Leftovers s.bytes.length), { s with offset := s.bytes.length })
    else
      let tlv_type := remaining.getD 0 0
      let len := u16_from_be (remaining.getD 1 0) (remaining.getD 2 0)
      let tlv_length := MINIMUM_TLV_LENGTH + len
      if remaining.length < tlv_length then
        some (.error (.InvalidTLV tlv_type len), { s with offset := s.bytes.length })
      else
        some (.ok { kind := tlv_type, value := slice remaining MINIMUM_TLV_LENGTH tlv_length },
          { s with offset := s.offset + tlv_length })

/-- Iterate `next`, keeping the state fixed when the iterator is exhausted. -/
def TypeLengthValues.advance (s : TypeLengthValues) : TypeLengthValues :=
  match s.next with
  | none => s
  | some (_, s') => s'

/-- Apply `advance` a fixed number of times. -/
def TypeLengthValues.advanceN : Nat → TypeLengthValues → TypeLengthValues
  | 0, s => s
  | n + 1, s => TypeLengthValues.advanceN n s.advance

end V2

namespace V1

/-- `v1::PROTOCOL_SUFFIX`: the bytes of the string CR LF. -/
def PROTOCOL_SUFFIX : List Nat := [13, 10]

/-- `v1::PROTOCOL_PREFIX`: the bytes of the string PROXY. -/
def PROTOCOL_PREFIX : List Nat := [80, 82, 79, 88, 89]

/-- `v1::TCP4`: the bytes of the string TCP4. -/
def TCP4 : List Nat := [84, 67, 80, 52]

/-- `v1::TCP6`: the bytes of the string TCP6. -/
def TCP6 : List Nat := [84, 67, 80, 54]

/-- `v1::UNKNOWN`: the bytes of the string UNKNOWN. -/
def UNKNOWN : List Nat := [85, 78, 75, 78, 79, 87, 78]

/-- `v1::SEPARATOR`: the ASCII space. -/
def SEPARATOR : Nat := 32

/-- `v1::ZERO`: the bytes of the string 0. -/
def ZERO : List Nat := [48]

/-- `v1::MAX_LENGTH`: maximum header length in bytes. -/
def MAX_LENGTH : Nat := 107

/-- `v1::PARTS`: maximum number of space-separated parts. -/
def PARTS : Nat := 6

/-- `v1::ParseError`.  The address-parse cause (`AddrParseError`) carries no
data; the port causes (`Option<ParseIntError>`) are modelled as `Option Unit`. -/
inductive ParseError where
  | InvalidPrefix
  | Partial
  | MissingPrefix
  | MissingNewLine
  | MissingProtocol
  | MissingSourceAddress
  | MissingDestinationAddress
  | MissingSourcePort
  | MissingDestinationPort
  | HeaderTooLong
  | InvalidProtocol
  | InvalidSuffix
  | UnexpectedCharacters
  | InvalidSourceAddress
  | InvalidDestinationAddress
  | InvalidSourcePort (cause : Option Unit)
  | InvalidDestinationPort (cause : Option Unit)
deriving DecidableEq, Repr

/-- Modelled from the spec: `v1::ParseError::is_incomplete` is not present in
the snapshot's `v1/error.rs`; per spec section 4.B the incomplete cases for v1
are exactly `MissingNewLine` and `Partial`. -/
def ParseError.is_incomplete : ParseError → Bool
  | .MissingNewLine => true
  | .Partial => true
  | _ => false

/-- `std::net::Ipv4Addr`: four octets. -/
structure Ipv4Addr where
  a : Nat
  b : Nat
  c : Nat
  d : Nat
deriving DecidableEq, Repr

/-- `std::net::Ipv6Addr`, viewed through `segments()`: eight 16-bit groups. -/
structure Ipv6Addr where
  segments : List Nat
deriving DecidableEq, Repr

/-- `v1::model::Tcp4`. -/
structure Tcp4 where
  source_address : Ipv4Addr
  source_port : Nat
  destination_address : Ipv4Addr
  destination_port : Nat
deriving DecidableEq, Repr

/-- `v1::model::Tcp6`. -/
structure Tcp6 where
  source_address : Ipv6Addr
  source_port : Nat
  destination_address : Ipv6Addr
  destination_port : Nat
deriving DecidableEq, Repr

/-- `v1::Addresses`. -/
inductive Addresses where
  | Unknown
  | Tcp4 (a : Tcp4)
  | Tcp6 (a : Tcp6)
deriving DecidableEq, Repr

/-- `v1::Header`. -/
structure Header where
  header : List Nat
  addresses : Addresses
deriving DecidableEq, Repr

/-- ASCII decimal digit? -/
def isDigit (x : Nat) : Bool := 48 ≤ x && x ≤ 57

/-- ASCII lowercase/uppercase hex digit? (`char::to_digit(16)`) -/
def isHexDigit (x : Nat) : Bool :=
  (48 ≤ x && x ≤ 57) || (97 ≤ x && x ≤ 102) || (65 ≤ x && x ≤ 70)

/-- Value of a hex digit byte. -/
def hexDigitVal (x : Nat) : Nat :=
  if 48 ≤ x && x ≤ 57 then x - 48
  else if 97 ≤ x && x ≤ 102 then x - 87
  else x - 55

/-- Value of a run of decimal digit bytes (most significant first). -/
def decValue (l : List Nat) : Nat := l.foldl (fun acc x => acc * 10 + (x - 48)) 0

/-- Value of a run of hex digit bytes (most significant first). -/
def hexValue (l : List Nat) : Nat := l.foldl (fun acc x => acc * 16 + hexDigitVal x) 0

/-- The std `Parser::read_number(10, Some(3), false)` into `u8`, used for one
dotted-decimal IPv4 octet: greedily take the decimal-digit run; fail on an
empty run, more than 3 digits, a redundant leading zero, or a value that
overflows `u8`.  Returns the octet and the remaining input. -/
def readDecOctet (s : List Nat) : Option (Nat × List Nat) :=
  let run := s.takeWhile isDigit
  let rest := s.dropWhile isDigit
  if run = [] then none
  else if run.length > 3 then none
  else if run.head? = some 48 && run.length > 1 then none
  else if decValue run > 255 then none
  else some (decValue run, rest)

/-- The std `Parser::read_number(16, Some(4), true)` into `u16`, used for one
IPv6 group: greedily take the hex-digit run; fail on an empty run or more than
4 digits. -/
def readHexGroup (s : List Nat) : Option (Nat × List Nat) :=
  let run := s.takeWhile isHexDigit
  let rest := s.dropWhile isHexDigit
  if run = [] then none
  else if run.length > 4 then none
  else some (hexValue run, rest)

/-- Consume one expected byte. -/
def expectByte (x : Nat) (s : List Nat) : Option (List Nat) :=
  match s with
  | [] => none
  | y :: rest => if y = x then some rest else none

/-- The std `Parser::read_ipv4_addr`: four octets separated by dots. -/
def read_ipv4_addr (s : List Nat) : Option (Ipv4Addr × List Nat) :=
  match readDecOctet s with
  | none => none
  | some (a, s1) =>
  match expectByte 46 s1 with
  | none => none
  | some s2 =>
  match readDecOctet s2 with
  | none => none
  | some (b, s3) =>
  match expectByte 46 s3 with
  | none => none
  | some s4 =>
  match readDecOctet s4 with
  | none => none
  | some (c, s5) =>
  match expectByte 46 s5 with
  | none => none
  | some s6 =>
  match readDecOctet s6 with
  | none => none
  | some (d, s7) => some (⟨a, b, c, d⟩, s7)

/-- The std `Parser::read_separator`: a leading colon is required before every
item except the first (`i = 0`). -/
def readSep (i : Nat) (p : List Nat → Option (α × List Nat)) (s : List Nat) :
    Option (α × List Nat) :=
  if i = 0 then p s
  else
    match expectByte 58 s with
    | none => none
    | some s' => p s'

/-- The std `read_groups` loop of `read_ipv6_addr`: read up to `slots` colon
separated groups starting at separator index `i`; at each position with at
least two slots left, first try a trailing embedded IPv4 address (which fills
two groups and ends the read).  Returns the groups, whether an embedded IPv4
address ended the read, and the remaining input. -/
def read_groups : Nat → Nat → List Nat → List Nat × Bool × List Nat
  | 0, _, s => ([], false, s)
  | slots + 1, i, s =>
    match (if slots + 1 ≥ 2 then readSep i read_ipv4_addr s else none) with
    | some (v4, rest) => ([u16_from_be v4.a v4.b, u16_from_be v4.c v4.d], true, rest)
    | none =>
      match readSep i readHexGroup s with
      | none => ([], false, s)
      | some (g, rest) =>
        match read_groups slots (i + 1) rest with
        | (gs, b, rest') => (g :: gs, b, rest')

/-- The std `Parser::read_ipv6_addr`: a head group list, then `::` and a tail
group list when fewer than eight head groups were read; the groups elided by
`::` are zero. -/
def read_ipv6_addr (s : List Nat) : Option (Ipv6Addr × List Nat) :=
  match read_groups 8 0 s with
  | (head, head_ipv4, rest) =>
    if head.length = 8 then some (⟨head⟩, rest)
    else if head_ipv4 then none
    else
      match expectByte 58 rest with
      | none => none
      | some rest1 =>
      match expectByte 58 rest1 with
      | none => none
      | some rest2 =>
        let limit := 8 - (head.length + 1)
        match read_groups limit 0 rest2 with
        | (tail, _, rest3) =>
          some (⟨head ++ List.replicate (8 - head.length - tail.length) 0 ++ tail⟩, rest3)

/-- `Ipv4Addr::from_str`: the whole input must be consumed. -/
def ipv4_from_str (s : List Nat) : Option Ipv4Addr :=
  match read_ipv4_addr s with
  | some (ip, []) => some ip
  | _ => none

/-- `Ipv6Addr::from_str`: the whole input must be consumed. -/
def ipv6_from_str (s : List Nat) : Option Ipv6Addr :=
  match read_ipv6_addr s with
  | some (ip, []) => some ip
  | _ => none

/-- The digit-consuming loop of `u16::from_str` with checked arithmetic:
every intermediate value must fit in `u16`. -/
def parseU16Digits : List Nat → Nat → Option Nat
  | [], acc => some acc
  | x :: rest, acc =>
    if isDigit x then
      if acc * 10 + (x - 48) > 65535 then none
      else parseU16Digits rest (acc * 10 + (x - 48))
    else none

/-- `u16::from_str`: an optional leading plus sign, then a non-empty digit
string whose value fits in `u16`. -/
def parse_u16 (s : List Nat) : Option Nat :=
  let digits := match s with
    | 43 :: rest => rest
    | _ => s
  match digits with
  | [] => none
  | _ => parseU16Digits digits 0

/-- `str::find` of CR LF: byte index of the first occurrence. -/
def findSuffix : List Nat → Option Nat
  | [] => none
  | x :: rest =>
    if x = 13 ∧ rest.head? = some 10 then some 0
    else (findSuffix rest).map (· + 1)

/-- `str::splitn` at the first separator occurrence: the part before and the
part after, or `none` when the separator does not occur. -/
def splitFirst (sep : Nat) : List Nat → Option (List Nat × List Nat)
  | [] => none
  | x :: rest =>
    if x = sep then some ([], rest)
    else (splitFirst sep rest).map (fun p => (x :: p.1, p.2))

/-- `str::splitn(n, sep)`: at most `n` parts; the last part holds the rest of
the input, separators included. -/
def splitn : Nat → Nat → List Nat → List (List Nat)
  | 0, _, _ => []
  | 1, _, s => [s]
  | n + 2, sep, s =>
    match splitFirst sep s with
    | none => [s]
    | some (before, after) => before :: splitn (n + 1) sep after

/-- `v1::parse_addresses`, parameterized by the address parser (`Ipv4Addr` or
`Ipv6Addr` `from_str`).  Returns the four parsed fields and the rest of the
part iterator. -/
def parse_addresses (pa : List Nat → Option α) (parts : List (List Nat)) :
    Except ParseError ((α × α × Nat × Nat) × List (List Nat)) :=
  match parts with
  | [] => .error .MissingSourceAddress
  | source_address :: parts1 =>
  match parts1 with
  | [] => .error .MissingDestinationAddress
  | destination_address :: parts2 =>
  match parts2 with
  | [] => .error .MissingSourcePort
  | source_port :: parts3 =>
  match parts3 with
  | [] => .error .MissingDestinationPort
  | destination_port :: parts4 =>
  match pa source_address with
  | none => .error .InvalidSourceAddress
  | some sa =>
  match pa destination_address with
  | none => .error .InvalidDestinationAddress
  | some da =>
  if source_port.head? = some 48 ∧ source_port ≠ ZERO then
    .error (.InvalidSourcePort none)
  else
  match parse_u16 source_port with
  | none => .error (.InvalidSourcePort (some ()))
  | some sp =>
  if destination_port.head? = some 48 ∧ destination_port ≠ ZERO then
    .error (.InvalidDestinationPort none)
  else
  match parse_u16 destination_port with
  | none => .error (.InvalidDestinationPort (some ()))
  | some dp => .ok ((sa, da, sp, dp), parts4)

/-- `v1::parse_header`: parse the stripped line (`header_stripped`) while the
full frame (`header`, CR LF included) is what the result borrows. -/
def parse_header (header_stripped header : List Nat) : Except ParseError Header :=
  if header.length > MAX_LENGTH then .error .HeaderTooLong
  else
    match splitn PARTS SEPARATOR header_stripped with
    | [] => .error .InvalidPrefix
    | first :: parts =>
      if first ≠ PROTOCOL_PREFIX then .error .InvalidPrefix
      else
        match parts with
        | [] => .error .MissingProtocol
        | protocol :: parts2 =>
          if protocol = TCP4 then
            match parse_addresses ipv4_from_str parts2 with
            | .error e => .error e
            | .ok ((sa, da, sp, dp), remaining) =>
              if remaining ≠ [] then .error .UnexpectedCharacters
              else .ok ⟨header, .Tcp4 ⟨sa, sp, da, dp⟩⟩
          else if protocol = TCP6 then
            match parse_addresses ipv6_from_str parts2 with
            | .error e => .error e
            | .ok ((sa, da, sp, dp), remaining) =>
              if remaining ≠ [] then .error .UnexpectedCharacters
              else .ok ⟨header, .Tcp6 ⟨sa, sp, da, dp⟩⟩
          else if protocol = UNKNOWN then
            .ok ⟨header, .Unknown⟩
          else if protocol ≠ [] then .error .InvalidProtocol
          else .error .MissingProtocol

/-- `impl TryFrom<&str> for v1::Header` (over the UTF-8 bytes of the input). -/
def try_from (input : List Nat) : Except ParseError Header :=
  match findSuffix input with
  | none =>
      .error (if input.length ≥ MAX_LENGTH then .HeaderTooLong else .MissingNewLine)
  | some e => parse_header (input.take e) (input.take (e + PROTOCOL_SUFFIX.length))

/-- Decimal digit bytes of `n`, most significant first, with explicit fuel
(empty for `n = 0`). -/
def toDecimalAux : Nat → Nat → List Nat
  | 0, _ => []
  | fuel + 1, n =>
    if n = 0 then []
    else toDecimalAux fuel (n / 10) ++ [48 + n % 10]

/-- Rust `{}` of an unsigned integer: decimal digits without leading zeros. -/
def toDecimal (n : Nat) : List Nat := if n = 0 then [48] else toDecimalAux n n

/-- Byte of one lowercase hex digit. -/
def hexDigitByte (d : Nat) : Nat := if d < 10 then 48 + d else 87 + d

/-- Lowercase hex digit bytes of `n`, most significant first, with explicit
fuel (empty for `n = 0`). -/
def toHexAux : Nat → Nat → List Nat
  | 0, _ => []
  | fuel + 1, n =>
    if n = 0 then []
    else toHexAux fuel (n / 16) ++ [hexDigitByte (n % 16)]

/-- Rust `{:x}` of an unsigned integer: lowercase hex without leading zeros. -/
def toHex (n : Nat) : List Nat := if n = 0 then [48] else toHexAux n n

/-- `Display` for `Ipv4Addr`: dotted decimal. -/
def Ipv4Addr.display (ip : Ipv4Addr) : List Nat :=
  toDecimal ip.a ++ [46] ++ toDecimal ip.b ++ [46] ++ toDecimal ip.c ++ [46] ++ toDecimal ip.d

/-- A colon before every group: the shape of the rendered tail of a group
list. -/
def allColon (gs : List Nat) : List Nat := (gs.map (fun g => 58 :: toHex g)).flatten

/-- Groups joined by colons (the std `fmt_subslice`). -/
def joinColon : List Nat → List Nat
  | [] => []
  | g :: tl => toHex g ++ allColon tl

/-- The zero-run scan of std `Display for Ipv6Addr`: `current` grows over a
zero run, `longest` keeps the first strictly-longest run seen. -/
def zeroRunAux : List Nat → Nat → Nat × Nat → Nat × Nat → Nat × Nat
  | [], _, _, longest => longest
  | seg :: rest, i, current, longest =>
    if seg = 0 then
      let cur := (if current.2 = 0 then i else current.1, current.2 + 1)
      zeroRunAux rest (i + 1) cur (if cur.2 > longest.2 then cur else longest)
    else zeroRunAux rest (i + 1) (0, 0) longest

/-- Start and length of the first longest run of zero groups. -/
def longestZeroRun (segs : List Nat) : Nat × Nat := zeroRunAux segs 0 (0, 0) (0, 0)

/-- `Display` for `Ipv6Addr`: the unspecified and loopback fast paths, the
IPv4-mapped form, and otherwise colon-hex groups with the first longest zero
run of length at least 2 elided by a double colon. -/
def Ipv6Addr.display (ip : Ipv6Addr) : List Nat :=
  if ip.segments = List.replicate 8 0 then [58, 58]
  else if ip.segments = [0, 0, 0, 0, 0, 0, 0, 1] then [58, 58, 49]
  else if ip.segments.take 6 = [0, 0, 0, 0, 0, 65535] then
    [58, 58, 102, 102, 102, 102, 58] ++
      Ipv4Addr.display ⟨ip.segments.getD 6 0 / 256, ip.segments.getD 6 0 % 256,
        ip.segments.getD 7 0 / 256, ip.segments.getD 7 0 % 256⟩
  else
    let z := longestZeroRun ip.segments
    if z.2 > 1 then
      joinColon (ip.segments.take z.1) ++ [58, 58] ++ joinColon (ip.segments.drop (z.1 + z.2))
    else joinColon ip.segments

/-- `Display` for `v1::Addresses`: the canonical wire line, CR LF included. -/
def Addresses.display : Addresses → List Nat
  | .Unknown => PROTOCOL_PREFIX ++ [SEPARATOR] ++ UNKNOWN ++ PROTOCOL_SUFFIX
  | .Tcp4 a =>
      PROTOCOL_PREFIX ++ [SEPARATOR] ++ TCP4 ++ [SEPARATOR] ++
        a.source_address.display ++ [SEPARATOR] ++ a.destination_address.display ++
        [SEPARATOR] ++ toDecimal a.source_port ++ [SEPARATOR] ++ toDecimal a.destination_port ++
        PROTOCOL_SUFFIX
  | .Tcp6 a =>
      PROTOCOL_PREFIX ++ [SEPARATOR] ++ TCP6 ++ [SEPARATOR] ++
        a.source_address.display ++ [SEPARATOR] ++ a.destination_address.display ++
        [SEPARATOR] ++ toDecimal a.source_port ++ [SEPARATOR] ++ toDecimal a.destination_port ++
        PROTOCOL_SUFFIX

/-- A well-formed IPv4 address value: four octet values. -/
def Ipv4Addr.wf (ip : Ipv4Addr) : Prop :=
  ip.a < 256 ∧ ip.b < 256 ∧ ip.c < 256 ∧ ip.d < 256

/-- A well-formed IPv6 address value: eight 16-bit segments. -/
def Ipv6Addr.wf (ip : Ipv6Addr) : Prop :=
  ip.segments.length = 8 ∧ ∀ g ∈ ip.segments, g < 65536

/-- A well-formed v1 `Addresses` value: machine-representable addresses and
16-bit ports. -/
def Addresses.wf : Addresses → Prop
  | .Unknown => True
  | .Tcp4 a =>
      a.source_address.wf ∧ a.destination_address.wf ∧
        a.source_port < 65536 ∧ a.destination_port < 65536
  | .Tcp6 a =>
      a.source_address.wf ∧ a.destination_address.wf ∧
        a.source_port < 65536 ∧ a.destination_port < 65536

instance (ip : Ipv4Addr) : Decidable ip.wf := by unfold Ipv4Addr.wf; infer_instance

instance (ip : Ipv6Addr) : Decidable ip.wf := by unfold Ipv6Addr.wf; infer_instance

instance (a : Addresses) : Decidable a.wf := by
  cases a <;> simp only [Addresses.wf] <;> infer_instance

end V1

namespace V2

/-- Builder-path failures: every failure in `v2/builder.rs` is the write-zero
I/O error kind. -/
inductive IoError where
  | WriteZero
deriving DecidableEq, Repr

/-- `to_be_bytes` of a `u16` value. -/
def u16_to_be (n : Nat) : List Nat := [n / 256 % 256, n % 256]

/-- `builder::Writer`: the growing output byte vector. -/
structure Writer where
  bytes : List Nat
deriving DecidableEq, Repr

/-- `Writer::write` (and `write_all`, which is a single `write` here): fails
with write-zero when the buffer already exceeds `u16::MAX + MINIMUM_LENGTH`
bytes, otherwise appends. -/
def Writer.write (w : Writer) (buf : List Nat) : Except IoError Writer :=
  if w.bytes.length > 65535 + MINIMUM_LENGTH then .error .WriteZero
  else .ok ⟨w.bytes ++ buf⟩

/-- `Addresses::len`. -/
def Addresses.len (a : Addresses) : Nat := a.address_family.byte_length.getD 0

/-- `WriteToHeader for Addresses`: the address block bytes, ports big-endian. -/
def Addresses.write_to (a : Addresses) (w : Writer) : Except IoError Writer :=
  match a with
  | .Unspecified => .ok w
  | .IPv4 x =>
      match w.write x.source_address with
      | .error e => .error e
      | .ok w1 =>
      match w1.write x.destination_address with
      | .error e => .error e
      | .ok w2 =>
      match w2.write (u16_to_be x.source_port) with
      | .error e => .error e
      | .ok w3 => w3.write (u16_to_be x.destination_port)
  | .IPv6 x =>
      match w.write x.source_address with
      | .error e => .error e
      | .ok w1 =>
      match w1.write x.destination_address with
      | .error e => .error e
      | .ok w2 =>
      match w2.write (u16_to_be x.source_port) with
      | .error e => .error e
      | .ok w3 => w3.write (u16_to_be x.destination_port)
  | .Unix x =>
      match w.write x.source with
      | .error e => .error e
      | .ok w1 => w1.write x.destination

/-- `WriteToHeader for TypeLengthValue`: rejects values longer than
`u16::MAX`, then writes type, big-endian length and value. -/
def TypeLengthValue.write_to (t : TypeLengthValue) (w : Writer) : Except IoError Writer :=
  if t.value.length > 65535 then .error .WriteZero
  else
    match w.write [t.kind] with
    | .error e => .error e
    | .ok w1 =>
    match w1.write (u16_to_be t.value.length) with
    | .error e => .error e
    | .ok w2 => w2.write t.value

/-- `WriteToHeader for [u8]`: rejects slices longer than `u16::MAX`. -/
def sliceWrite (bs : List Nat) (w : Writer) : Except IoError Writer :=
  if bs.length > 65535 then .error .WriteZero else w.write bs

/-- `v2::builder::Builder`. -/
structure Builder where
  header : Option (List Nat)
  version_command : Nat
  address_family_protocol : Nat
  addresses : Option Addresses
  length : Option Nat
  additional_capacity : Nat
deriving DecidableEq, Repr

/-- `Builder::new`. -/
def Builder.new (version_command address_family_protocol : Nat) : Builder :=
  ⟨none, version_command, address_family_protocol, none, none, 0⟩

/-- Discriminant byte of an `AddressFamily`. -/
def AddressFamily.toByte : AddressFamily → Nat
  | .Unspecified => 0x00
  | .IPv4 => 0x10
  | .IPv6 => 0x20
  | .Unix => 0x30

/-- Discriminant byte of a `Protocol`. -/
def Protocol.toByte : Protocol → Nat
  | .Unspecified => 0x00
  | .Stream => 0x01
  | .Datagram => 0x02

/-- `Builder::with_addresses`. -/
def Builder.with_addresses (version_command : Nat) (protocol : Protocol)
    (addresses : Addresses) : Builder :=
  ⟨none, version_command, addresses.address_family.toByte ||| protocol.toByte,
    some addresses, none, 0⟩

/-- `Builder::reserve_capacity`: capacity only, no observable byte effect. -/
def Builder.reserve_capacity (b : Builder) (capacity : Nat) : Builder :=
  match b.header with
  | some _ => b
  | none => { b with additional_capacity := b.additional_capacity + capacity }

/-- `Builder::set_length`. -/
def Builder.set_length (b : Builder) (l : Option Nat) : Builder := { b with length := l }

/-- `Builder::write_internal`: run a `WriteToHeader` payload against the
accumulated bytes. -/
def Builder.write_internal (b : Builder) (payload : Writer → Except IoError Writer) :
    Except IoError Builder :=
  match payload ⟨b.header.getD []⟩ with
  | .error e => .error e
  | .ok w => .ok { b with header := some w.bytes }

/-- `Builder::write_header`: emit the 16-byte prolog (signature, version and
command byte, family and protocol byte, the length field as currently set)
once, followed by the addresses when `with_addresses` was used. -/
def Builder.write_header (b : Builder) : Except IoError Builder :=
  match b.header with
  | some _ => .ok b
  | none =>
      let header := PROTOCOL_PREFIX ++ [b.version_command, b.address_family_protocol] ++
        u16_to_be (b.length.getD 0)
      let b1 : Builder := { b with header := some header }
      match b.addresses with
      | some addresses => b1.write_internal addresses.write_to
      | none => .ok b1

/-- `Builder::write_payload`. -/
def Builder.write_payload (b : Builder) (payload : Writer → Except IoError Writer) :
    Except IoError Builder :=
  match b.write_header with
  | .error e => .error e
  | .ok b1 => b1.write_internal payload

/-- `Builder::write_tlv`. -/
def Builder.write_tlv (b : Builder) (kind : Nat) (value : List Nat) :
    Except IoError Builder :=
  b.write_payload (TypeLengthValue.write_to ⟨kind, value⟩)

/-- `Builder::build`: ensure the prolog, then emit as-is when a length was
set, otherwise back-patch bytes 14-15 with the payload length, failing with
write-zero when it does not fit in a `u16`. -/
def Builder.build (b : Builder) : Except IoError (List Nat) :=
  match b.write_header with
  | .error e => .error e
  | .ok b1 =>
      let header := b1.header.getD []
      if b1.length.isSome then .ok header
      else if header.length - MINIMUM_LENGTH > 65535 then .error .WriteZero
      else .ok (header.take LENGTH ++ u16_to_be (header.length - MINIMUM_LENGTH) ++
        header.drop MINIMUM_LENGTH)

/-- Payload byte count of a builder state: what `build` measures after the
prolog is ensured. -/
def Builder.payload_length (b : Builder) : Nat :=
  match b.header with
  | some h => h.length - MINIMUM_LENGTH
  | none => (b.addresses.map Addresses.len).getD 0

/-- One public builder call, for reasoning about arbitrary builder runs. -/
inductive BuilderOp where
  | set_length (l : Option Nat)
  | write_bytes (bs : List Nat)
  | write_tlv (kind : Nat) (value : List Nat)
  | reserve_capacity (n : Nat)
deriving DecidableEq, Repr

/-- Is the call a `set_length` with a `Some` value? -/
def BuilderOp.isSetSome : BuilderOp → Bool
  | .set_length (some _) => true
  | _ => false

/-- Is the call a `set_length` at all? -/
def BuilderOp.isSetLength : BuilderOp → Bool
  | .set_length _ => true
  | _ => false

/-- Apply one builder call. -/
def applyOp (b : Builder) : BuilderOp → Except IoError Builder
  | .set_length l => .ok (b.set_length l)
  | .write_bytes bs => b.write_payload (sliceWrite bs)
  | .write_tlv kind value => b.write_tlv kind value
  | .reserve_capacity n => .ok (b.reserve_capacity n)

/-- Apply a sequence of builder calls. -/
def runOps (b : Builder) : List BuilderOp → Except IoError Builder
  | [] => .ok b
  | op :: ops =>
      match applyOp b op with
      | .error e => .error e
      | .ok b1 => runOps b1 ops

end V2

/-- Modelled from the spec: the unified entry point `HeaderResult` of the
crate's `lib.rs` is absent from the snapshot; per spec section 4.F it holds
either a v1 or a v2 parse result. -/
inductive HeaderResult where
  | VersionOne (r : Except V1.ParseError V1.Header)
  | VersionTwo (r : Except V2.ParseError V2.Header)
deriving DecidableEq, Repr

/-- Modelled from the spec: `is_incomplete` on the composite result lifts the
per-version predicates; a success is not incomplete. -/
def HeaderResult.is_incomplete : HeaderResult → Bool
  | .VersionOne (.error e) => e.is_incomplete
  | .VersionTwo (.error e) => e.is_incomplete
  | _ => false

/-- Modelled from the spec: `HeaderResult::parse` dispatch rule of section
4.F; v2 when the input begins with the 12-byte v2 signature or is a (short)
prefix of it, otherwise v1.  A `none` result models a panic propagating out
of the v2 parser. -/
def parse (input : List Nat) : Option HeaderResult :=
  if V2.PROTOCOL_PREFIX.isPrefixOf input || input.isPrefixOf V2.PROTOCOL_PREFIX then
    (V2.try_from input).map .VersionTwo
  else some (.VersionOne (V1.try_from input))

end Ppp

section V1SanityChecks

open Ppp Ppp.V1

/-- ASCII bytes of a literal, for concrete test inputs. -/
def strBytes (s : String) : List Nat := s.toList.map Char.toNat

example :
    V1.try_from (strBytes "PROXY TCP4 255.255.255.255 255.255.255.255 65535 65535\r\nFoobar") =
      .ok ⟨strBytes "PROXY TCP4 255.255.255.255 255.255.255.255 65535 65535\r\n",
        .Tcp4 ⟨⟨255, 255, 255, 255⟩, 65535, ⟨255, 255, 255, 255⟩, 65535⟩⟩ := by decide

example :
    V1.try_from (strBytes "PROXY UNKNOWN\r\nTwo") =
      .ok ⟨strBytes "PROXY UNKNOWN\r\n", .Unknown⟩ := by decide

example :
    V1.try_from (strBytes "PROXY TCP4 255.255.255.255 255.255.255.255 65535 65535") =
      .error .MissingNewLine := by decide

example :
    V1.try_from (strBytes "PROXY TCP4 255.255.255.255 255.255.255.255 05535 65535\r\n") =
      .error (.InvalidSourcePort none) := by decide

example :
    V1.try_from (strBytes "PROXY  TCP4 255.255.255.255 255.255.255.255 65535 65535\r\n") =
      .error .MissingProtocol := by decide

example :
    V1.try_from (strBytes "PROXY TCP4 255.255.255.255 255.255.255.255 65535 65535 \r\n") =
      .error (.InvalidDestinationPort (some ())) := by decide

example : V1.try_from (strBytes "PROX\r\n") = .error .InvalidPrefix := by decide

example : V1.try_from (strBytes "PROXY tcp4\r\n") = .error .InvalidProtocol := by decide

example :
    V1.try_from (strBytes "PROXY TCP6 ::1 ffff:ffff:ffff:ffff:ffff:ffff:ffff:ffff 65535 65535\r\nHi!") =
      .ok ⟨strBytes "PROXY TCP6 ::1 ffff:ffff:ffff:ffff:ffff:ffff:ffff:ffff 65535 65535\r\n",
        .Tcp6 ⟨⟨[0, 0, 0, 0, 0, 0, 0, 1]⟩, 65535,
          ⟨[65535, 65535, 65535, 65535, 65535, 65535, 65535, 65535]⟩, 65535⟩⟩ := by decide

example :
    V1.try_from (strBytes "PROXY TCP6 ffff::ffff ffff:ffff:ffff:ffff:ffff:ffff:ffff:ffff 65535 65535\r\n") =
      .ok ⟨strBytes "PROXY TCP6 ffff::ffff ffff:ffff:ffff:ffff:ffff:ffff:ffff:ffff 65535 65535\r\n",
        .Tcp6 ⟨⟨[65535, 0, 0, 0, 0, 0, 0, 65535]⟩, 65535,
          ⟨[65535, 65535, 65535, 65535, 65535, 65535, 65535, 65535]⟩, 65535⟩⟩ := by decide

example :
    V1.try_from (strBytes "PROXY TCP6 ffff::ffff:ffff:ffff:ffff::ffff ffff:ffff:ffff:ffff:ffff:ffff:ffff:ffff 65535 65535\r\n") =
      .error .InvalidSourceAddress := by decide

example :
    (Addresses.Tcp6 ⟨⟨[0x1234, 0, 0, 0, 0, 0xffff, 0x0102, 0x0304], ⟩, 80,
      ⟨[0, 0, 0, 0, 0, 0xffff, 0x7f00, 1]⟩, 443⟩).display =
      strBytes "PROXY TCP6 1234::ffff:102:304 ::ffff:127.0.0.1 80 443\r\n" := by decide

example :
    V1.try_from ((Addresses.Tcp6 ⟨⟨[0, 0, 0, 0, 0, 0xffff, 0x7f00, 1]⟩, 80,
      ⟨[0x1234, 0, 0, 0, 0, 0xffff, 0x0102, 0x0304]⟩, 443⟩).display) =
      .ok ⟨(Addresses.Tcp6 ⟨⟨[0, 0, 0, 0, 0, 0xffff, 0x7f00, 1]⟩, 80,
        ⟨[0x1234, 0, 0, 0, 0, 0xffff, 0x0102, 0x0304]⟩, 443⟩).display,
        .Tcp6 ⟨⟨[0, 0, 0, 0, 0, 0xffff, 0x7f00, 1]⟩, 80,
          ⟨[0x1234, 0, 0, 0, 0, 0xffff, 0x0102, 0x0304]⟩, 443⟩⟩ := by decide

end V1SanityChecks

section BuilderSanityChecks

open Ppp Ppp.V2

example : (Builder.new 0x21 0x01).build = .ok (PROTOCOL_PREFIX ++ [0x21, 0x01, 0, 0]) := by
  decide

example :
    (runOps (Builder.new 0x21 0x01) [.write_bytes [42]]).bind Builder.build =
      .ok (PROTOCOL_PREFIX ++ [0x21, 0x01, 0, 1, 42]) := by decide

example :
    (runOps (Builder.new 0x21 0x12) [.set_length (some 1), .write_bytes [0, 0, 0, 1]]).bind
      Builder.build = .ok (PROTOCOL_PREFIX ++ [0x21, 0x12, 0, 1, 0, 0, 0, 1]) := by decide

example :
    (Builder.with_addresses 0x20 .Unspecified
      (.IPv6 ⟨List.replicate 15 0xFF ++ [0xF2], List.replicate 15 0xFF ++ [0xF1], 80, 443⟩)).build =
      .ok (PROTOCOL_PREFIX ++ [0x20, 0x20, 0, 36] ++ List.replicate 15 0xFF ++ [0xF2] ++
        List.replicate 15 0xFF ++ [0xF1] ++ [0, 80, 1, 187]) := by decide

example :
    (runOps (Builder.new 0x20 0x31)
      [.set_length (some 216),
       .write_bytes (List.replicate 108 0xFF ++ List.replicate 108 0xAA),
       .write_tlv 20 []]).bind Builder.build =
      .ok (PROTOCOL_PREFIX ++ [0x20, 0x31, 0, 216] ++ List.replicate 108 0xFF ++
        List.replicate 108 0xAA ++ [20, 0, 0]) := by decide

end BuilderSanityChecks

section V2SanityChecks

open Ppp Ppp.V2

example :
    V2.try_from (PROTOCOL_PREFIX ++ [0x21, 0x11, 0, 12, 127, 0, 0, 1, 127, 0, 0, 2, 0, 80, 1, 187]) =
      some (.ok ⟨PROTOCOL_PREFIX ++ [0x21, 0x11, 0, 12, 127, 0, 0, 1, 127, 0, 0, 2, 0, 80, 1, 187],
        .Two, .Proxy, .Stream,
        .IPv4 ⟨[127, 0, 0, 1], [127, 0, 0, 2], 80, 443⟩⟩) := by decide

example : V2.try_from [13, 10, 13, 10, 0] = some (.error (.Incomplete 5)) := by decide

example :
    V2.try_from (PROTOCOL_PREFIX ++ [0x21, 0x10, 0, 8, 127, 0, 0, 1, 127, 0, 0, 2]) =
      some (.error (.InvalidAddresses 8 12)) := by decide

example :
    V2.try_from (PROTOCOL_PREFIX ++ [0x21, 0x11, 0, 12, 127, 0, 0, 1, 127, 0]) =
      some (.error (.Partial 12 6)) := by decide

example :
    (V2.try_from (PROTOCOL_PREFIX ++ [0x21, 0x00, 0, 12, 127, 0, 0, 1, 127, 0, 0, 2, 0, 80, 1, 187])).map
      (fun r => r.map (fun h => (h.address_bytes, h.tlv_bytes))) =
      some (.ok ([127, 0, 0, 1, 127, 0, 0, 2, 0, 80, 1, 187], [])) := by decide

example :
    V2.try_from (PROTOCOL_PREFIX ++ [0x21, 0x30, 0, 216] ++ List.replicate 216 0) =
      some (.ok ⟨PROTOCOL_PREFIX ++ [0x21, 0x30, 0, 216] ++ List.replicate 216 0,
        .Two, .Proxy, .Unspecified,
        .Unix ⟨List.replicate 108 0, List.replicate 108 0⟩⟩) := by decide

example :
    V2.try_from (PROTOCOL_PREFIX ++ [0x21, 0x30, 0, 220] ++ List.replicate 220 0) =
      none := by decide

end V2SanityChecks

/-! ## TLV iterator lemmas and claims C5, C10 -/

namespace Ppp

lemma tlv_next_none_of_exhausted (s : V2.TypeLengthValues) (h : s.bytes.length ≤ s.offset) :
    s.next = none := by
  unfold V2.TypeLengthValues.next
  rw [if_pos (by omega)]

lemma tlv_step_facts (s s' : V2.TypeLengthValues) (i : Except V2.ParseError V2.TypeLengthValue)
    (h : s.next = some (i, s')) :
    s'.bytes = s.bytes ∧ s.offset < s'.offset ∧ s'.offset ≤ s.bytes.length ∧
      (∀ t, i = .ok t → s.offset + 3 ≤ s'.offset) ∧
      (∀ e, i = .error e → s'.offset = s.bytes.length) := by
  obtain ⟨bytes, offset⟩ := s
  simp only [V2.TypeLengthValues.next, List.length_drop, ge_iff_le,
    V2.MINIMUM_TLV_LENGTH] at h
  split_ifs at h with h1 h2 h3
  · rw [Option.some.injEq, Prod.mk.injEq] at h
    obtain ⟨hi, hs⟩ := h
    subst hi
    subst hs
    refine ⟨rfl, by simp; omega, by simp, ?_, fun e he => rfl⟩
    intro t ht
    exact absurd ht (by simp)
  · rw [Option.some.injEq, Prod.mk.injEq] at h
    obtain ⟨hi, hs⟩ := h
    subst hi
    subst hs
    refine ⟨rfl, by simp; omega, by simp, ?_, fun e he => rfl⟩
    intro t ht
    exact absurd ht (by simp)
  · rw [Option.some.injEq, Prod.mk.injEq] at h
    obtain ⟨hi, hs⟩ := h
    subst hi
    subst hs
    refine ⟨rfl, Nat.lt_add_of_pos_right (by omega), ?_, ?_, ?_⟩
    · show offset +
        (3 + u16_from_be ((List.drop offset bytes).getD 1 0) ((List.drop offset bytes).getD 2 0)) ≤
          bytes.length
      omega
    · exact fun t ht => Nat.add_le_add_left (Nat.le_add_right 3 _) offset
    · intro e he
      exact absurd he (by simp)

lemma tlv_advanceN_of_none (s : V2.TypeLengthValues) (h : s.next = none) :
    ∀ n, V2.TypeLengthValues.advanceN n s = s := by
  intro n
  induction n with
  | zero => rfl
  | succ n ih =>
      have ha : s.advance = s := by
        unfold V2.TypeLengthValues.advance
        rw [h]
      rw [V2.TypeLengthValues.advanceN, ha, ih]

lemma tlv_advanceN_exhausts :
    ∀ (r : Nat) (s : V2.TypeLengthValues), s.bytes.length - s.offset ≤ r →
      (V2.TypeLengthValues.advanceN r s).next = none := by
  intro r
  induction r with
  | zero =>
      intro s hr
      exact tlv_next_none_of_exhausted s (by omega)
  | succ n ih =>
      intro s hr
      rcases hn : s.next with _ | ⟨i, s'⟩
      · rw [tlv_advanceN_of_none s hn]
        exact hn
      · have facts := tlv_step_facts s s' i hn
        have hb : s'.bytes.length = s.bytes.length := by rw [facts.1]
        have hlt := facts.2.1
        have hle := facts.2.2.1
        have ha : s.advance = s' := by
          unfold V2.TypeLengthValues.advance
          rw [hn]
        rw [V2.TypeLengthValues.advanceN, ha]
        exact ih s' (by omega)

/-- Claim C5: each `next` call on the TLV iterator returns `none` when the
cursor is at or past the end; `Err(Leftovers(total))` when fewer than three
bytes remain; `Err(InvalidTLV(type, length))` when the record is longer than
the remaining bytes; and otherwise `Ok` of the type byte and exactly the
following `length` value bytes, advancing the cursor by `3 + length`. -/
theorem claim_C5_tlv_iterator_step (s : V2.TypeLengthValues) :
    (s.bytes.length ≤ s.offset → s.next = none) ∧
    (s.offset < s.bytes.length → s.bytes.length - s.offset < 3 →
      s.next = some (.error (.Leftovers s.bytes.length), ⟨s.bytes, s.bytes.length⟩)) ∧
    (∀ t l, s.offset + 3 ≤ s.bytes.length →
      t = (s.bytes.drop s.offset).getD 0 0 →
      l = u16_from_be ((s.bytes.drop s.offset).getD 1 0) ((s.bytes.drop s.offset).getD 2 0) →
      (s.bytes.length < s.offset + 3 + l →
        s.next = some (.error (.InvalidTLV t l), ⟨s.bytes, s.bytes.length⟩)) ∧
      (s.offset + 3 + l ≤ s.bytes.length →
        s.next = some (.ok ⟨t, slice (s.bytes.drop s.offset) 3 (3 + l)⟩,
          ⟨s.bytes, s.offset + 3 + l⟩))) := by
  refine ⟨fun h => tlv_next_none_of_exhausted _ h, fun h1 h2 => ?_,
    fun t l h3 ht hl => ⟨fun h4 => ?_, fun h4 => ?_⟩⟩
  · simp only [V2.TypeLengthValues.next, V2.MINIMUM_TLV_LENGTH]
    rw [if_neg (by omega), if_pos (by rw [List.length_drop]; omega)]
  · subst ht hl
    simp only [V2.TypeLengthValues.next, V2.MINIMUM_TLV_LENGTH]
    rw [if_neg (by omega), if_neg (by rw [List.length_drop]; omega),
      if_pos (by rw [List.length_drop]; omega)]
  · subst ht hl
    simp only [V2.TypeLengthValues.next, V2.MINIMUM_TLV_LENGTH]
    rw [if_neg (by omega), if_neg (by rw [List.length_drop]; omega),
      if_neg (by rw [List.length_drop]; omega)]
    simp [Nat.add_assoc]

/-- Witness for C5 at a concrete state: one four-byte record parses as an
`Ok` TLV of type 1 with value `[5]`, advancing the cursor to 4. -/
theorem claim_C5_witness :
    V2.TypeLengthValues.next ⟨[1, 0, 1, 5], 0⟩ =
      some (.ok ⟨1, [5]⟩, ⟨[1, 0, 1, 5], 4⟩) := by
  have h := ((claim_C5_tlv_iterator_step ⟨[1, 0, 1, 5], 0⟩).2.2 1 1 (by decide) (by decide)
    (by decide)).2 (by decide)
  exact h

/-- Claim C10: TLV iteration terminates and is fused: every yielded item
keeps the region, advances the cursor (an `Ok` item by at least 3 bytes, an
`Err` item to the end of the region, after which `next` returns `none`), and
iterating `next` as many times as there are remaining bytes exhausts the
iterator. -/
theorem claim_C10_tlv_termination_fused :
    (∀ (s s' : V2.TypeLengthValues) (i : Except V2.ParseError V2.TypeLengthValue),
        s.next = some (i, s') →
        s'.bytes = s.bytes ∧ s.offset < s'.offset ∧
          (∀ t, i = .ok t → s.offset + 3 ≤ s'.offset) ∧
          (∀ e, i = .error e → s'.offset = s.bytes.length ∧ s'.next = none)) ∧
    (∀ s : V2.TypeLengthValues,
        (V2.TypeLengthValues.advanceN (s.bytes.length - s.offset) s).next = none) := by
  constructor
  · intro s s' i h
    have facts := tlv_step_facts s s' i h
    refine ⟨facts.1, facts.2.1, facts.2.2.2.1, ?_⟩
    intro e he
    have hoff := facts.2.2.2.2 e he
    refine ⟨hoff, tlv_next_none_of_exhausted s' ?_⟩
    rw [facts.1, hoff]
  · intro s
    exact tlv_advanceN_exhausts (s.bytes.length - s.offset) s le_rfl

/-- Witness for C10 at a concrete state: a region of two leftover bytes
yields one `Err` item placing the cursor at the end, after which `next`
returns `none`. -/
theorem claim_C10_witness :
    (⟨[7, 7], 2⟩ : V2.TypeLengthValues).offset = ([7, 7] : List Nat).length ∧
      V2.TypeLengthValues.next ⟨[7, 7], 2⟩ = none := by
  have h := (claim_C10_tlv_termination_fused.1 ⟨[7, 7], 0⟩ ⟨[7, 7], 2⟩
    (.error (.Leftovers 2)) (by decide)).2.2.2 (.Leftovers 2) rfl
  exact h

/-! ## v2 parser lemmas and claims C2, C3, C4 -/

lemma slice_length (l : List Nat) (a b : Nat) : (slice l a b).length = min b l.length - a := by
  simp [slice]

lemma parse_addresses_address_family (af : V2.AddressFamily) (bytes : List Nat)
    (a : V2.Addresses) (h : V2.parse_addresses af bytes = some a) :
    a.address_family = af := by
  cases af <;> unfold V2.parse_addresses at h <;> try split_ifs at h
  all_goals obtain rfl := Option.some.inj h
  all_goals rfl

lemma v2_try_from_eval (input : List Nat) (ver : V2.Version) (cmd : V2.Command)
    (af : V2.AddressFamily) (proto : V2.Protocol)
    (h16 : ¬ input.length < 16)
    (hpre : input.take 12 = V2.PROTOCOL_PREFIX)
    (hv : V2.parseVersion (input.getD 12 0) = .ok ver)
    (hc : V2.parseCommand (input.getD 12 0) = .ok cmd)
    (haf : V2.parseAddressFamily (input.getD 13 0) = .ok af)
    (hp : V2.parseProtocol (input.getD 13 0) = .ok proto) :
    V2.try_from input =
      (if u16_from_be (input.getD 14 0) (input.getD 15 0) < af.byte_length.getD 0 then
        some (.error (.InvalidAddresses (u16_from_be (input.getD 14 0) (input.getD 15 0))
          (af.byte_length.getD 0)))
      else if input.length < 16 + u16_from_be (input.getD 14 0) (input.getD 15 0) then
        some (.error (.Partial (u16_from_be (input.getD 14 0) (input.getD 15 0))
          (input.length - 16)))
      else
        match V2.parse_addresses af
            ((input.take (16 + u16_from_be (input.getD 14 0) (input.getD 15 0))).drop 16) with
        | none => none
        | some addresses =>
            some (.ok ⟨input.take (16 + u16_from_be (input.getD 14 0) (input.getD 15 0)),
              ver, cmd, proto, addresses⟩)) := by
  simp only [V2.try_from, V2.MINIMUM_LENGTH, V2.VERSION_COMMAND, V2.ADDRESS_FAMILY_PROTOCOL,
    V2.LENGTH, hv, hc, haf, hp, if_neg h16, hpre]
  simp

lemma v2_try_from_ok_elim (input : List Nat) (hd : V2.Header)
    (hok : V2.try_from input = some (.ok hd)) :
    ∃ ver cmd af proto,
      ¬ input.length < 16 ∧
      input.take 12 = V2.PROTOCOL_PREFIX ∧
      V2.parseVersion (input.getD 12 0) = .ok ver ∧
      V2.parseCommand (input.getD 12 0) = .ok cmd ∧
      V2.parseAddressFamily (input.getD 13 0) = .ok af ∧
      V2.parseProtocol (input.getD 13 0) = .ok proto ∧
      af.byte_length.getD 0 ≤ u16_from_be (input.getD 14 0) (input.getD 15 0) ∧
      16 + u16_from_be (input.getD 14 0) (input.getD 15 0) ≤ input.length ∧
      ∃ addresses,
        V2.parse_addresses af
          ((input.take (16 + u16_from_be (input.getD 14 0) (input.getD 15 0))).drop 16) =
          some addresses ∧
        hd = ⟨input.take (16 + u16_from_be (input.getD 14 0) (input.getD 15 0)), ver, cmd, proto,
          addresses⟩ := by
  unfold V2.try_from at hok
  simp only [V2.MINIMUM_LENGTH, V2.VERSION_COMMAND, V2.ADDRESS_FAMILY_PROTOCOL,
    V2.LENGTH, Nat.reduceAdd] at hok
  split at hok
  next h1 => simp at hok
  next h1 =>
  split at hok
  next h2 => simp at hok
  next h2 =>
  split at hok
  next e heq => simp at hok
  next ver hv =>
  split at hok
  next e heq => simp at hok
  next cmd hc =>
  split at hok
  next e heq => simp at hok
  next af haf =>
  split at hok
  next e heq => simp at hok
  next proto hp =>
  split at hok
  next h3 => simp at hok
  next h3 =>
  split at hok
  next h4 => simp at hok
  next h4 =>
  split at hok
  next hpa => simp at hok
  next addresses hpa =>
  refine ⟨ver, cmd, af, proto, h1, not_not.mp h2, hv, hc, haf, hp, by omega, by omega,
    addresses, hpa, ?_⟩
  exact (Except.ok.inj (Option.some.inj hok)).symm

/-- Claim C4: every successfully parsed v2 header satisfies the length
invariants: total length is 16 plus the payload length, the payload splits
exactly into address bytes and TLV bytes, and for a non-Unspec family the
address block has the family's required byte count. -/
theorem claim_C4_v2_length_consistency (input : List Nat) (hd : V2.Header)
    (hok : V2.try_from input = some (.ok hd)) :
    hd.len = 16 + hd.length ∧
    hd.length = hd.address_bytes.length + hd.tlv_bytes.length ∧
    (hd.address_family ≠ .Unspecified →
      hd.address_bytes.length = hd.address_family.byte_length.getD 0) := by
  obtain ⟨ver, cmd, af, proto, h16, hpre, hv, hc, haf, hp, hreq, hlen, addresses, hpa, rfl⟩ :=
    v2_try_from_ok_elim input hd hok
  have hheader : (input.take (16 + u16_from_be (input.getD 14 0) (input.getD 15 0))).length =
      16 + u16_from_be (input.getD 14 0) (input.getD 15 0) := by
    rw [List.length_take]
    omega
  have hfam :
      (V2.Header.mk (input.take (16 + u16_from_be (input.getD 14 0) (input.getD 15 0))) ver cmd
        proto addresses).address_family = af :=
    parse_addresses_address_family af _ addresses hpa
  simp only [V2.Header.len, V2.Header.length, V2.Header.address_bytes, V2.Header.tlv_bytes,
    V2.Header.address_bytes_end, V2.MINIMUM_LENGTH, hfam, slice_length, List.length_drop,
    hheader]
  cases af
  · simp only [V2.AddressFamily.byte_length, Option.getD_none] at hreq ⊢
    exact ⟨by omega, by omega, fun hne => absurd rfl hne⟩
  · simp only [V2.AddressFamily.byte_length, V2.IPV4_ADDRESSES_BYTES,
      Option.getD_some] at hreq ⊢
    exact ⟨by omega, by omega, fun _ => by omega⟩
  · simp only [V2.AddressFamily.byte_length, V2.IPV6_ADDRESSES_BYTES,
      Option.getD_some] at hreq ⊢
    exact ⟨by omega, by omega, fun _ => by omega⟩
  · simp only [V2.AddressFamily.byte_length, V2.UNIX_ADDRESSES_BYTES,
      Option.getD_some] at hreq ⊢
    exact ⟨by omega, by omega, fun _ => by omega⟩

/-- Witness for C4 at a concrete parsed IPv4 header. -/
theorem claim_C4_witness :
    (V2.Header.mk
        (V2.PROTOCOL_PREFIX ++ [0x21, 0x11, 0, 12, 127, 0, 0, 1, 127, 0, 0, 2, 0, 80, 1, 187])
        .Two .Proxy .Stream (.IPv4 ⟨[127, 0, 0, 1], [127, 0, 0, 2], 80, 443⟩)).len =
      16 + (V2.Header.mk
        (V2.PROTOCOL_PREFIX ++ [0x21, 0x11, 0, 12, 127, 0, 0, 1, 127, 0, 0, 2, 0, 80, 1, 187])
        .Two .Proxy .Stream (.IPv4 ⟨[127, 0, 0, 1], [127, 0, 0, 2], 80, 443⟩)).length ∧
    (V2.Header.mk
        (V2.PROTOCOL_PREFIX ++ [0x21, 0x11, 0, 12, 127, 0, 0, 1, 127, 0, 0, 2, 0, 80, 1, 187])
        .Two .Proxy .Stream (.IPv4 ⟨[127, 0, 0, 1], [127, 0, 0, 2], 80, 443⟩)).length =
      (V2.Header.mk
        (V2.PROTOCOL_PREFIX ++ [0x21, 0x11, 0, 12, 127, 0, 0, 1, 127, 0, 0, 2, 0, 80, 1, 187])
        .Two .Proxy .Stream (.IPv4 ⟨[127, 0, 0, 1], [127, 0, 0, 2], 80, 443⟩)).address_bytes.length +
      (V2.Header.mk
        (V2.PROTOCOL_PREFIX ++ [0x21, 0x11, 0, 12, 127, 0, 0, 1, 127, 0, 0, 2, 0, 80, 1, 187])
        .Two .Proxy .Stream (.IPv4 ⟨[127, 0, 0, 1], [127, 0, 0, 2], 80, 443⟩)).tlv_bytes.length ∧
    ((V2.Header.mk
        (V2.PROTOCOL_PREFIX ++ [0x21, 0x11, 0, 12, 127, 0, 0, 1, 127, 0, 0, 2, 0, 80, 1, 187])
        .Two .Proxy .Stream (.IPv4 ⟨[127, 0, 0, 1], [127, 0, 0, 2], 80, 443⟩)).address_family ≠
        .Unspecified →
      (V2.Header.mk
        (V2.PROTOCOL_PREFIX ++ [0x21, 0x11, 0, 12, 127, 0, 0, 1, 127, 0, 0, 2, 0, 80, 1, 187])
        .Two .Proxy .Stream
        (.IPv4 ⟨[127, 0, 0, 1], [127, 0, 0, 2], 80, 443⟩)).address_bytes.length =
      (V2.Header.mk
        (V2.PROTOCOL_PREFIX ++ [0x21, 0x11, 0, 12, 127, 0, 0, 1, 127, 0, 0, 2, 0, 80, 1, 187])
        .Two .Proxy .Stream
        (.IPv4 ⟨[127, 0, 0, 1], [127, 0, 0, 2], 80, 443⟩)).address_family.byte_length.getD 0) :=
  claim_C4_v2_length_consistency
    (V2.PROTOCOL_PREFIX ++ [0x21, 0x11, 0, 12, 127, 0, 0, 1, 127, 0, 0, 2, 0, 80, 1, 187])
    (V2.Header.mk
      (V2.PROTOCOL_PREFIX ++ [0x21, 0x11, 0, 12, 127, 0, 0, 1, 127, 0, 0, 2, 0, 80, 1, 187])
      .Two .Proxy .Stream (.IPv4 ⟨[127, 0, 0, 1], [127, 0, 0, 2], 80, 443⟩)) (by decide)

/-- Counterexample to C3 as stated: a successfully parsed Unspec header with
declared length 12 whose `address_bytes()` is the entire 12-byte payload (not
empty) and whose `tlv_bytes()` is empty (not the payload). -/
theorem claim_C3_counterexample :
    V2.try_from (V2.PROTOCOL_PREFIX ++ [0x21, 0x00, 0, 12, 127, 0, 0, 1, 127, 0, 0, 2, 0, 80, 1, 187]) =
      some (.ok ⟨V2.PROTOCOL_PREFIX ++ [0x21, 0x00, 0, 12, 127, 0, 0, 1, 127, 0, 0, 2, 0, 80, 1, 187],
        .Two, .Proxy, .Unspecified, .Unspecified⟩) ∧
    (V2.Header.mk
      (V2.PROTOCOL_PREFIX ++ [0x21, 0x00, 0, 12, 127, 0, 0, 1, 127, 0, 0, 2, 0, 80, 1, 187])
      .Two .Proxy .Unspecified .Unspecified).address_family = .Unspecified ∧
    (V2.Header.mk
      (V2.PROTOCOL_PREFIX ++ [0x21, 0x00, 0, 12, 127, 0, 0, 1, 127, 0, 0, 2, 0, 80, 1, 187])
      .Two .Proxy .Unspecified .Unspecified).address_bytes =
      [127, 0, 0, 1, 127, 0, 0, 2, 0, 80, 1, 187] ∧
    (V2.Header.mk
      (V2.PROTOCOL_PREFIX ++ [0x21, 0x00, 0, 12, 127, 0, 0, 1, 127, 0, 0, 2, 0, 80, 1, 187])
      .Two .Proxy .Unspecified .Unspecified).address_bytes ≠ [] ∧
    (V2.Header.mk
      (V2.PROTOCOL_PREFIX ++ [0x21, 0x00, 0, 12, 127, 0, 0, 1, 127, 0, 0, 2, 0, 80, 1, 187])
      .Two .Proxy .Unspecified .Unspecified).tlv_bytes = [] := by
  refine ⟨by decide, by decide, by decide, by decide, by decide⟩

/-- Claim C3 amended: for a successfully parsed v2 header whose address
family is Unspec, `address_bytes()` is the entire payload (the
`byte_length().unwrap_or(length)` fallback) and the TLV region is empty, so
`tlvs()` yields nothing. -/
theorem claim_C3_amended_unspec_address_block (input : List Nat) (hd : V2.Header)
    (hok : V2.try_from input = some (.ok hd)) (hf : hd.address_family = .Unspecified) :
    hd.address_bytes = hd.header.drop 16 ∧ hd.tlv_bytes = [] ∧ hd.tlvs.next = none := by
  obtain ⟨ver, cmd, af, proto, h16, hpre, hv, hc, haf, hp, hreq, hlen, addresses, hpa, rfl⟩ :=
    v2_try_from_ok_elim input hd hok
  have haf2 : af = .Unspecified := by
    rw [← parse_addresses_address_family af
      ((input.take (16 + u16_from_be (input.getD 14 0) (input.getD 15 0))).drop 16)
      addresses hpa]
    exact hf
  subst haf2
  have haddr : addresses = .Unspecified := (Option.some.inj hpa).symm
  subst haddr
  have hheader : (input.take (16 + u16_from_be (input.getD 14 0) (input.getD 15 0))).length =
      16 + u16_from_be (input.getD 14 0) (input.getD 15 0) := by
    rw [List.length_take]
    omega
  have hend :
      (V2.Header.mk (input.take (16 + u16_from_be (input.getD 14 0) (input.getD 15 0))) ver cmd
        proto .Unspecified).address_bytes_end =
      16 + u16_from_be (input.getD 14 0) (input.getD 15 0) := by
    simp only [V2.Header.address_bytes_end, V2.Header.address_family, V2.Header.length,
      V2.Addresses.address_family, V2.AddressFamily.byte_length,
      Option.getD_none, V2.MINIMUM_LENGTH, List.length_drop, hheader, min_self]
    omega
  have habytes :
      (V2.Header.mk (input.take (16 + u16_from_be (input.getD 14 0) (input.getD 15 0))) ver cmd
        proto .Unspecified).address_bytes =
      (input.take (16 + u16_from_be (input.getD 14 0) (input.getD 15 0))).drop 16 := by
    simp only [V2.Header.address_bytes, hend, slice, V2.MINIMUM_LENGTH]
    rw [List.take_of_length_le (le_of_eq hheader)]
  have htbytes :
      (V2.Header.mk (input.take (16 + u16_from_be (input.getD 14 0) (input.getD 15 0))) ver cmd
        proto .Unspecified).tlv_bytes =
      [] := by
    simp only [V2.Header.tlv_bytes, hend]
    exact List.drop_eq_nil_of_le (by omega)
  refine ⟨habytes, htbytes, ?_⟩
  apply tlv_next_none_of_exhausted
  simp only [V2.Header.tlvs, htbytes, List.length_nil]
  omega

/-- Witness for the amended C3 at a concrete Unspec header. -/
theorem claim_C3_witness :
    (V2.Header.mk
      (V2.PROTOCOL_PREFIX ++ [0x21, 0x00, 0, 12, 127, 0, 0, 1, 127, 0, 0, 2, 0, 80, 1, 187])
      .Two .Proxy .Unspecified .Unspecified).address_bytes =
      (V2.Header.mk
        (V2.PROTOCOL_PREFIX ++ [0x21, 0x00, 0, 12, 127, 0, 0, 1, 127, 0, 0, 2, 0, 80, 1, 187])
        .Two .Proxy .Unspecified .Unspecified).header.drop 16 ∧
    (V2.Header.mk
      (V2.PROTOCOL_PREFIX ++ [0x21, 0x00, 0, 12, 127, 0, 0, 1, 127, 0, 0, 2, 0, 80, 1, 187])
      .Two .Proxy .Unspecified .Unspecified).tlv_bytes = [] ∧
    (V2.Header.mk
      (V2.PROTOCOL_PREFIX ++ [0x21, 0x00, 0, 12, 127, 0, 0, 1, 127, 0, 0, 2, 0, 80, 1, 187])
      .Two .Proxy .Unspecified .Unspecified).tlvs.next = none :=
  claim_C3_amended_unspec_address_block
    (V2.PROTOCOL_PREFIX ++ [0x21, 0x00, 0, 12, 127, 0, 0, 1, 127, 0, 0, 2, 0, 80, 1, 187])
    (V2.Header.mk
      (V2.PROTOCOL_PREFIX ++ [0x21, 0x00, 0, 12, 127, 0, 0, 1, 127, 0, 0, 2, 0, 80, 1, 187])
      .Two .Proxy .Unspecified .Unspecified) (by decide) (by decide)

/-- Claim C2: the v2 parser classifies, in order: fewer than 16 bytes gives
`Incomplete(len)` regardless of content; after the signature, version,
command, family and protocol checks pass, a declared length below the
family's required byte count gives `InvalidAddresses(declared, required)`;
otherwise, fewer than `16 + declared` input bytes gives
`Partial(declared, len - 16)`. -/
theorem claim_C2_v2_classification (input : List Nat) :
    (input.length < 16 → V2.try_from input = some (.error (.Incomplete input.length))) ∧
    (∀ ver cmd af proto,
      16 ≤ input.length →
      input.take 12 = V2.PROTOCOL_PREFIX →
      V2.parseVersion (input.getD 12 0) = .ok ver →
      V2.parseCommand (input.getD 12 0) = .ok cmd →
      V2.parseAddressFamily (input.getD 13 0) = .ok af →
      V2.parseProtocol (input.getD 13 0) = .ok proto →
      (u16_from_be (input.getD 14 0) (input.getD 15 0) < af.byte_length.getD 0 →
        V2.try_from input = some (.error (.InvalidAddresses
          (u16_from_be (input.getD 14 0) (input.getD 15 0)) (af.byte_length.getD 0)))) ∧
      (af.byte_length.getD 0 ≤ u16_from_be (input.getD 14 0) (input.getD 15 0) →
        input.length < 16 + u16_from_be (input.getD 14 0) (input.getD 15 0) →
        V2.try_from input = some (.error
          (.Partial (u16_from_be (input.getD 14 0) (input.getD 15 0))
            (input.length - 16))))) := by
  constructor
  · intro h
    unfold V2.try_from
    rw [if_pos (by simpa [V2.MINIMUM_LENGTH] using h)]
  · intro ver cmd af proto h16 hpre hv hc haf hp
    have heval := v2_try_from_eval input ver cmd af proto (by omega) hpre hv hc haf hp
    constructor
    · intro hlt
      rw [heval, if_pos hlt]
    · intro hge hshort
      rw [heval, if_neg (by omega), if_pos hshort]

/-- Witness for C2 at a concrete truncated IPv4 frame: 22 input bytes with a
declared length of 12 give `Partial(12, 6)`. -/
theorem claim_C2_witness :
    V2.try_from (V2.PROTOCOL_PREFIX ++ [0x21, 0x11, 0, 12, 127, 0, 0, 1, 127, 0]) =
      some (.error (.Partial 12 6)) := by
  have h := ((claim_C2_v2_classification
    (V2.PROTOCOL_PREFIX ++ [0x21, 0x11, 0, 12, 127, 0, 0, 1, 127, 0])).2 .Two .Proxy .IPv4
    .Stream (by decide) (by decide) (by decide) (by decide) (by decide) (by decide)).2
    (by decide) (by decide)
  exact h

/-! ## Prefix-transfer lemmas and claim C1 -/

lemma isPrefix_take_eq {P B : List Nat} (h : P <+: B) {n : Nat} (hn : n ≤ P.length) :
    B.take n = P.take n := by
  obtain ⟨t, rfl⟩ := h
  rw [List.take_append_eq_append_take, Nat.sub_eq_zero_of_le hn, List.take_zero,
    List.append_nil]

lemma isPrefix_getD_eq {P B : List Nat} (h : P <+: B) {i : Nat} (hi : i < P.length) :
    B.getD i 0 = P.getD i 0 := by
  obtain ⟨t, rfl⟩ := h
  rw [List.getD_eq_getElem?_getD, List.getD_eq_getElem?_getD, List.getElem?_append_left hi]

lemma parseVersion_error (b : Nat) (e : V2.ParseError)
    (h : V2.parseVersion b = .error e) : ∃ v, e = .Version v := by
  unfold V2.parseVersion at h
  split at h <;> simp_all
  exact ⟨_, h.symm⟩

lemma parseCommand_error (b : Nat) (e : V2.ParseError)
    (h : V2.parseCommand b = .error e) : ∃ c, e = .Command c := by
  unfold V2.parseCommand at h
  split at h <;> simp_all
  exact ⟨_, h.symm⟩

lemma parseAddressFamily_error (b : Nat) (e : V2.ParseError)
    (h : V2.parseAddressFamily b = .error e) : ∃ a, e = .AddressFamily a := by
  unfold V2.parseAddressFamily at h
  split at h <;> simp_all
  exact ⟨_, h.symm⟩

lemma parseProtocol_error (b : Nat) (e : V2.ParseError)
    (h : V2.parseProtocol b = .error e) : ∃ p, e = .Protocol p := by
  unfold V2.parseProtocol at h
  split at h <;> simp_all
  exact ⟨_, h.symm⟩

lemma v2_try_from_partial_elim (input : List Nat) (d g : Nat)
    (hp : V2.try_from input = some (.error (.Partial d g))) :
    ∃ ver cmd af proto,
      ¬ input.length < 16 ∧
      input.take 12 = V2.PROTOCOL_PREFIX ∧
      V2.parseVersion (input.getD 12 0) = .ok ver ∧
      V2.parseCommand (input.getD 12 0) = .ok cmd ∧
      V2.parseAddressFamily (input.getD 13 0) = .ok af ∧
      V2.parseProtocol (input.getD 13 0) = .ok proto ∧
      d = u16_from_be (input.getD 14 0) (input.getD 15 0) ∧
      af.byte_length.getD 0 ≤ d ∧
      input.length < 16 + d ∧
      g = input.length - 16 := by
  unfold V2.try_from at hp
  simp only [V2.MINIMUM_LENGTH, V2.VERSION_COMMAND, V2.ADDRESS_FAMILY_PROTOCOL,
    V2.LENGTH, Nat.reduceAdd] at hp
  split at hp
  next h1 => simp at hp
  next h1 =>
  split at hp
  next h2 => simp at hp
  next h2 =>
  split at hp
  next e heq =>
    obtain ⟨v, rfl⟩ := parseVersion_error _ _ heq
    simp at hp
  next ver hv =>
  split at hp
  next e heq =>
    obtain ⟨c, rfl⟩ := parseCommand_error _ _ heq
    simp at hp
  next cmd hc =>
  split at hp
  next e heq =>
    obtain ⟨a, rfl⟩ := parseAddressFamily_error _ _ heq
    simp at hp
  next af haf =>
  split at hp
  next e heq =>
    obtain ⟨p, rfl⟩ := parseProtocol_error _ _ heq
    simp at hp
  next proto hpp =>
  split at hp
  next h3 => simp at hp
  next h3 =>
  split at hp
  next h4 =>
    have hinj := V2.ParseError.Partial.inj (Except.error.inj (Option.some.inj hp))
    exact ⟨ver, cmd, af, proto, h1, not_not.mp h2, hv, hc, haf, hpp, hinj.1.symm,
      by omega, by omega, hinj.2.symm⟩
  next h4 =>
    split at hp
    next => simp at hp
    next => simp at hp

/-- Counterexample to C1 as stated: the four bytes of `PROX` parse (via the
v1 parser, as dispatched) to the incomplete error `MissingNewLine`, yet the
extension `PROX\r\n` parses to the fatal error `InvalidPrefix`, a fatal error
that the prefix did not already yield. -/
theorem claim_C1_counterexample :
    ([80, 82, 79, 88] : List Nat) <+: [80, 82, 79, 88, 13, 10] ∧
    parse [80, 82, 79, 88] = some (.VersionOne (.error .MissingNewLine)) ∧
    (HeaderResult.VersionOne (.error .MissingNewLine)).is_incomplete = true ∧
    parse [80, 82, 79, 88, 13, 10] = some (.VersionOne (.error .InvalidPrefix)) ∧
    (HeaderResult.VersionOne (.error .InvalidPrefix)).is_incomplete = false :=
  ⟨⟨[13, 10], rfl⟩, by decide, by decide, by decide, by decide⟩

/-- Claim C1 amended: for the v2 parser, once a prefix `P` parses to the
incomplete error `Partial(d, g)`, any extension `B` parses to `Partial(d, _)`
again, to success, or to a panic (modelled `none`); it cannot become a fatal
error return.  The panic branch is reachable: the 16-byte Unix prolog
declaring payload length 220 parses to `Partial(220, 0)`, while its 236-byte
completion panics in `parse_addresses` (the destination `copy_from_slice`
receives 112 bytes for a 108-byte array). -/
theorem claim_C1_amended_v2_partial_monotone :
    (∀ P B d g, P <+: B → V2.try_from P = some (.error (.Partial d g)) →
      V2.try_from B = none ∨
      (∃ g2, V2.try_from B = some (.error (.Partial d g2))) ∨
      (∃ hd, V2.try_from B = some (.ok hd))) ∧
    (V2.try_from (V2.PROTOCOL_PREFIX ++ [0x21, 0x30, 0, 220]) =
        some (.error (.Partial 220 0)) ∧
      (V2.PROTOCOL_PREFIX ++ [0x21, 0x30, 0, 220] : List Nat) <+:
        V2.PROTOCOL_PREFIX ++ [0x21, 0x30, 0, 220] ++ List.replicate 220 0 ∧
      V2.try_from (V2.PROTOCOL_PREFIX ++ [0x21, 0x30, 0, 220] ++ List.replicate 220 0) =
        none) := by
  constructor
  · intro P B d g hpre hP
    obtain ⟨ver, cmd, af, proto, h16, hpfx, hv, hc, haf, hpp, hdeq, hreq, hshort, hgeq⟩ :=
      v2_try_from_partial_elim P d g hP
    have hlen := hpre.length_le
    have htake : B.take 12 = P.take 12 := isPrefix_take_eq hpre (by omega)
    have h12 : B.getD 12 0 = P.getD 12 0 := isPrefix_getD_eq hpre (by omega)
    have h13 : B.getD 13 0 = P.getD 13 0 := isPrefix_getD_eq hpre (by omega)
    have h14 : B.getD 14 0 = P.getD 14 0 := isPrefix_getD_eq hpre (by omega)
    have h15 : B.getD 15 0 = P.getD 15 0 := isPrefix_getD_eq hpre (by omega)
    have heval := v2_try_from_eval B ver cmd af proto (by omega) (by rw [htake, hpfx])
      (by rw [h12]; exact hv) (by rw [h12]; exact hc) (by rw [h13]; exact haf)
      (by rw [h13]; exact hpp)
    rw [h14, h15, ← hdeq] at heval
    rw [heval, if_neg (by omega)]
    by_cases hB : B.length < 16 + d
    · rw [if_pos hB]
      exact .inr (.inl ⟨B.length - 16, rfl⟩)
    · rw [if_neg hB]
      rcases hpa : V2.parse_addresses af ((B.take (16 + d)).drop 16) with _ | addresses
      · exact .inl (by simp [hpa])
      · exact .inr (.inr ⟨⟨B.take (16 + d), ver, cmd, proto, addresses⟩, by simp [hpa]⟩)
  · exact ⟨by decide, ⟨List.replicate 220 0, rfl⟩, by decide⟩

/-- Witness for the amended C1: an 18-byte prefix of an IPv4 frame parses to
`Partial(12, 2)`, and its completion parses without a fatal error return. -/
theorem claim_C1_witness :
    V2.try_from
        (V2.PROTOCOL_PREFIX ++ [0x21, 0x11, 0, 12, 127, 0, 0, 1, 127, 0, 0, 2, 0, 80, 1, 187]) =
      none ∨
    (∃ g2, V2.try_from
        (V2.PROTOCOL_PREFIX ++ [0x21, 0x11, 0, 12, 127, 0, 0, 1, 127, 0, 0, 2, 0, 80, 1, 187]) =
      some (.error (.Partial 12 g2))) ∨
    (∃ hd, V2.try_from
        (V2.PROTOCOL_PREFIX ++ [0x21, 0x11, 0, 12, 127, 0, 0, 1, 127, 0, 0, 2, 0, 80, 1, 187]) =
      some (.ok hd)) :=
  claim_C1_amended_v2_partial_monotone.1
    (V2.PROTOCOL_PREFIX ++ [0x21, 0x11, 0, 12, 127, 0])
    (V2.PROTOCOL_PREFIX ++ [0x21, 0x11, 0, 12, 127, 0, 0, 1, 127, 0, 0, 2, 0, 80, 1, 187])
    12 2 ⟨[0, 1, 127, 0, 0, 2, 0, 80, 1, 187], by decide⟩ (by decide)

/-! ## Builder lemmas and claim C6 -/

lemma writer_write_ok (w : V2.Writer) (bs : List Nat)
    (h : ¬ w.bytes.length > 65535 + 16) : w.write bs = .ok ⟨w.bytes ++ bs⟩ := by
  unfold V2.Writer.write
  rw [if_neg (by simpa [V2.MINIMUM_LENGTH] using h)]

lemma write_ok_appends (w : V2.Writer) (bs : List Nat) (w' : V2.Writer)
    (h : w.write bs = .ok w') : w'.bytes = w.bytes ++ bs := by
  unfold V2.Writer.write at h
  split_ifs at h
  exact congrArg V2.Writer.bytes (Except.ok.inj h).symm

lemma sliceWrite_appends (bs : List Nat) (w w' : V2.Writer)
    (h : V2.sliceWrite bs w = .ok w') : w'.bytes = w.bytes ++ bs := by
  unfold V2.sliceWrite at h
  split_ifs at h
  exact write_ok_appends w bs w' h

lemma tlv_write_to_appends (t : V2.TypeLengthValue) (w w' : V2.Writer)
    (h : t.write_to w = .ok w') :
    w'.bytes = w.bytes ++ ([t.kind] ++ V2.u16_to_be t.value.length ++ t.value) := by
  unfold V2.TypeLengthValue.write_to at h
  split_ifs at h
  split at h
  next e h1 => simp at h
  next w1 h1 =>
  split at h
  next e h2 => simp at h
  next w2 h2 =>
  have e1 := write_ok_appends _ _ _ h1
  have e2 := write_ok_appends _ _ _ h2
  have e3 := write_ok_appends _ _ _ h
  rw [e3, e2, e1]
  simp [List.append_assoc]

lemma write_internal_appends (b : V2.Builder) (payload : V2.Writer → Except V2.IoError V2.Writer)
    (b' : V2.Builder)
    (happend : ∀ w w', payload w = .ok w' → ∃ tail, w'.bytes = w.bytes ++ tail)
    (h : b.write_internal payload = .ok b') :
    ∃ tail, b' = { b with header := some (b.header.getD [] ++ tail) } := by
  unfold V2.Builder.write_internal at h
  rcases hp : payload ⟨b.header.getD []⟩ with e | w
  · rw [hp] at h
    simp at h
  · rw [hp] at h
    obtain ⟨tail, htail⟩ := happend _ _ hp
    refine ⟨tail, ?_⟩
    have := Except.ok.inj h
    rw [← this, htail]

lemma prolog_length (vc afp m : Nat) :
    (V2.PROTOCOL_PREFIX ++ [vc, afp] ++ V2.u16_to_be m).length = 16 := by
  simp [V2.PROTOCOL_PREFIX, V2.u16_to_be]

lemma write_header_of_some (b : V2.Builder) (h : List Nat) (hh : b.header = some h) :
    b.write_header = .ok b := by
  unfold V2.Builder.write_header
  rw [hh]

lemma write_header_of_none (b : V2.Builder) (hh : b.header = none) (ha : b.addresses = none) :
    b.write_header =
      .ok { b with header := some (V2.PROTOCOL_PREFIX ++
        [b.version_command, b.address_family_protocol] ++ V2.u16_to_be (b.length.getD 0)) } := by
  unfold V2.Builder.write_header
  rw [hh, ha]

lemma write_payload_facts (b : V2.Builder) (payload : V2.Writer → Except V2.IoError V2.Writer)
    (b' : V2.Builder)
    (happend : ∀ w w', payload w = .ok w' → ∃ tail, w'.bytes = w.bytes ++ tail)
    (hop : b.write_payload payload = .ok b')
    (ha : b.addresses = none) :
    b'.addresses = none ∧ b'.version_command = b.version_command ∧
    b'.address_family_protocol = b.address_family_protocol ∧ b'.length = b.length ∧
    b'.additional_capacity = b.additional_capacity ∧
    ∃ h', b'.header = some h' ∧
      ((∃ h, b.header = some h ∧ ∃ tail, h' = h ++ tail) ∨
       (b.header = none ∧ ∃ tail, h' =
         V2.PROTOCOL_PREFIX ++ [b.version_command, b.address_family_protocol] ++
           V2.u16_to_be (b.length.getD 0) ++ tail)) := by
  unfold V2.Builder.write_payload at hop
  rcases hh : b.header with _ | h
  · rw [write_header_of_none b hh ha] at hop
    obtain ⟨tail, rfl⟩ := write_internal_appends _ _ _ happend hop
    refine ⟨ha, rfl, rfl, rfl, rfl, _, rfl, .inr ⟨rfl, tail, by simp⟩⟩
  · rw [write_header_of_some b h hh] at hop
    obtain ⟨tail, rfl⟩ := write_internal_appends _ _ _ happend hop
    refine ⟨ha, rfl, rfl, rfl, rfl, _, rfl, .inl ⟨h, rfl, tail, by simp [hh]⟩⟩

lemma prolog_drop14 (vc afp : Nat) (bs : List Nat) :
    (V2.PROTOCOL_PREFIX ++ [vc, afp] ++ bs).drop 14 = bs := by
  simp [V2.PROTOCOL_PREFIX]

lemma slice_mid14 (A B C : List Nat) (hA : A.length = 14) (hB : B.length = 2) :
    slice (A ++ B ++ C) 14 16 = B := by
  unfold slice
  rw [List.append_assoc, List.take_append_eq_append_take, List.take_of_length_le (by omega), hA]
  rw [show (16 - 14 : Nat) = 2 from rfl]
  rw [List.take_append_eq_append_take, List.take_of_length_le (by omega), hB]
  rw [show (2 - 2 : Nat) = 0 from rfl, List.take_zero, List.append_nil]
  rw [List.drop_append_eq_append_drop, List.drop_eq_nil_of_le (by omega), hA]
  rw [show (14 - 14 : Nat) = 0 from rfl, List.drop_zero, List.nil_append]

lemma runOps_facts (L : Option Nat) :
    ∀ (ops : List V2.BuilderOp) (b b' : V2.Builder),
      V2.runOps b ops = .ok b' →
      b.addresses = none →
      b.length = L →
      (∀ op ∈ ops, op = .set_length L ∨ op.isSetLength = false) →
      (∀ h, b.header = some h → 16 ≤ h.length ∧
        h.take 16 = V2.PROTOCOL_PREFIX ++ [b.version_command, b.address_family_protocol] ++
          V2.u16_to_be (L.getD 0)) →
      b'.addresses = none ∧ b'.length = L ∧
      b'.version_command = b.version_command ∧
      b'.address_family_protocol = b.address_family_protocol ∧
      (∀ h, b'.header = some h → 16 ≤ h.length ∧
        h.take 16 = V2.PROTOCOL_PREFIX ++ [b.version_command, b.address_family_protocol] ++
          V2.u16_to_be (L.getD 0)) := by
  intro ops
  induction ops with
  | nil =>
      intro b b' hrun ha hl _ hh
      have hb : b = b' := Except.ok.inj hrun
      subst hb
      exact ⟨ha, hl, rfl, rfl, hh⟩
  | cons op ops ih =>
      intro b b' hrun ha hl hops hh
      rw [show V2.runOps b (op :: ops) =
        (match V2.applyOp b op with
          | .error e => .error e
          | .ok b1 => V2.runOps b1 ops) from rfl] at hrun
      split at hrun
      next e heq => simp at hrun
      next b1 heq =>
      have hops' : ∀ o ∈ ops, o = .set_length L ∨ V2.BuilderOp.isSetLength o = false :=
        fun o ho => hops o (List.mem_cons_of_mem op ho)
      have hophead := hops op (List.mem_cons_self op ops)
      cases op with
      | set_length l =>
          have hL : l = L := by
            rcases hophead with h1 | h1
            · exact V2.BuilderOp.set_length.inj h1
            · simp [V2.BuilderOp.isSetLength] at h1
          subst hL
          have hb1 : b1 = { b with length := l } := by
            simpa [V2.applyOp, V2.Builder.set_length] using heq.symm
          subst hb1
          have := ih { b with length := l } b' hrun ha rfl hops' (fun h hsome => hh h hsome)
          exact ⟨this.1, this.2.1, this.2.2.1, this.2.2.2.1, this.2.2.2.2⟩
      | reserve_capacity m =>
          have hb1 : b1 = b.reserve_capacity m := by
            simpa [V2.applyOp] using heq.symm
          have hfields : b1.header = b.header ∧ b1.addresses = b.addresses ∧
              b1.length = b.length ∧ b1.version_command = b.version_command ∧
              b1.address_family_protocol = b.address_family_protocol := by
            subst hb1
            unfold V2.Builder.reserve_capacity
            split <;> simp
          obtain ⟨hf1, hf2, hf3, hf4, hf5⟩ := hfields
          have := ih b1 b' hrun (by rw [hf2, ha]) (by rw [hf3, hl]) hops'
            (by rw [hf1, hf4, hf5]; exact hh)
          rw [hf4, hf5] at this
          exact this
      | write_bytes bs =>
          have heq' : b.write_payload (V2.sliceWrite bs) = .ok b1 := by
            simpa [V2.applyOp] using heq
          have hfacts := write_payload_facts b (V2.sliceWrite bs) b1
            (fun w w' hw => ⟨bs, sliceWrite_appends bs w w' hw⟩) heq' ha
          obtain ⟨ha1, hvc1, hafp1, hl1, _, h', hh1, hcases⟩ := hfacts
          have hmin1 : ∀ h, b1.header = some h → 16 ≤ h.length ∧
              h.take 16 = V2.PROTOCOL_PREFIX ++
                [b.version_command, b.address_family_protocol] ++ V2.u16_to_be (L.getD 0) := by
            intro h hsome
            rw [hh1] at hsome
            have hh' : h = h' := (Option.some.inj hsome).symm
            subst hh'
            rcases hcases with ⟨h0, hsome0, tail, rfl⟩ | ⟨hnone0, tail, rfl⟩
            · have hfact0 := hh h0 hsome0
              exact ⟨by rw [List.length_append]; omega,
                by rw [isPrefix_take_eq ⟨tail, rfl⟩ (by omega)]; exact hfact0.2⟩
            · rw [hl]
              constructor
              · rw [List.length_append, prolog_length]
                omega
              · rw [isPrefix_take_eq ⟨tail, rfl⟩
                  (le_of_eq (prolog_length b.version_command b.address_family_protocol
                    (L.getD 0)).symm)]
                exact List.take_of_length_le (le_of_eq (prolog_length _ _ _))
          rw [← hvc1, ← hafp1] at hmin1
          have := ih b1 b' hrun ha1 (by rw [hl1, hl]) hops' hmin1
          rw [hvc1, hafp1] at this
          exact ⟨this.1, this.2.1, this.2.2.1, this.2.2.2.1, this.2.2.2.2⟩
      | write_tlv kind value =>
          have heq' : b.write_payload (V2.TypeLengthValue.write_to ⟨kind, value⟩) = .ok b1 := by
            simpa [V2.applyOp, V2.Builder.write_tlv] using heq
          have hfacts := write_payload_facts b (V2.TypeLengthValue.write_to ⟨kind, value⟩) b1
            (fun w w' hw => ⟨_, tlv_write_to_appends ⟨kind, value⟩ w w' hw⟩) heq' ha
          obtain ⟨ha1, hvc1, hafp1, hl1, _, h', hh1, hcases⟩ := hfacts
          have hmin1 : ∀ h, b1.header = some h → 16 ≤ h.length ∧
              h.take 16 = V2.PROTOCOL_PREFIX ++
                [b.version_command, b.address_family_protocol] ++ V2.u16_to_be (L.getD 0) := by
            intro h hsome
            rw [hh1] at hsome
            have hh' : h = h' := (Option.some.inj hsome).symm
            subst hh'
            rcases hcases with ⟨h0, hsome0, tail, rfl⟩ | ⟨hnone0, tail, rfl⟩
            · have hfact0 := hh h0 hsome0
              exact ⟨by rw [List.length_append]; omega,
                by rw [isPrefix_take_eq ⟨tail, rfl⟩ (by omega)]; exact hfact0.2⟩
            · rw [hl]
              constructor
              · rw [List.length_append, prolog_length]
                omega
              · rw [isPrefix_take_eq ⟨tail, rfl⟩
                  (le_of_eq (prolog_length b.version_command b.address_family_protocol
                    (L.getD 0)).symm)]
                exact List.take_of_length_le (le_of_eq (prolog_length _ _ _))
          rw [← hvc1, ← hafp1] at hmin1
          have := ih b1 b' hrun ha1 (by rw [hl1, hl]) hops' hmin1
          rw [hvc1, hafp1] at this
          exact ⟨this.1, this.2.1, this.2.2.1, this.2.2.2.1, this.2.2.2.2⟩

lemma build_eval_none (b : V2.Builder) (ha : b.addresses = none) (hl : b.length = none)
    (hmin : ∀ h, b.header = some h → 16 ≤ h.length) :
    ∃ h, b.write_header = .ok { b with header := some h } ∧ 16 ≤ h.length ∧
      b.build = (if h.length - 16 > 65535 then .error .WriteZero
        else .ok (h.take 14 ++ V2.u16_to_be (h.length - 16) ++ h.drop 16)) := by
  obtain ⟨hdr, vc, afp, ad, l, cap⟩ := b
  simp only at ha hl hmin
  subst ha hl
  rcases hdr with _ | h
  · refine ⟨V2.PROTOCOL_PREFIX ++ [vc, afp] ++ V2.u16_to_be 0, ?_, ?_, ?_⟩
    · exact write_header_of_none _ rfl rfl
    · exact le_of_eq (prolog_length vc afp 0).symm
    · unfold V2.Builder.build
      rw [write_header_of_none _ rfl rfl]
      simp only [Option.getD_some, Option.getD_none, Option.isSome_none, Bool.false_eq_true,
        if_false, V2.MINIMUM_LENGTH, V2.LENGTH]
  · refine ⟨h, ?_, hmin h rfl, ?_⟩
    · exact write_header_of_some _ h rfl
    · unfold V2.Builder.build
      rw [write_header_of_some _ h rfl]
      simp only [Option.getD_some, Option.getD_none, Option.isSome_none, Bool.false_eq_true,
        if_false, V2.MINIMUM_LENGTH, V2.LENGTH]

lemma build_eval_some (b : V2.Builder) (n : Nat) (ha : b.addresses = none)
    (hl : b.length = some n) :
    ∃ h, b.write_header = .ok { b with header := some h } ∧ b.build = .ok h ∧
      ((b.header = some h) ∨ (b.header = none ∧ h = V2.PROTOCOL_PREFIX ++
        [b.version_command, b.address_family_protocol] ++ V2.u16_to_be n)) := by
  obtain ⟨hdr, vc, afp, ad, l, cap⟩ := b
  simp only at ha hl
  subst ha hl
  rcases hdr with _ | h
  · refine ⟨V2.PROTOCOL_PREFIX ++ [vc, afp] ++ V2.u16_to_be n, ?_, ?_, .inr ⟨rfl, rfl⟩⟩
    · exact write_header_of_none _ rfl rfl
    · unfold V2.Builder.build
      rw [write_header_of_none _ rfl rfl]
      simp
  · refine ⟨h, write_header_of_some _ h rfl, ?_, .inl rfl⟩
    unfold V2.Builder.build
    rw [write_header_of_some _ h rfl]
    simp

/-- Counterexample to C6 as stated: `set_length(Some(5))` issued after the
first write leaves bytes 14-15 at the value the prolog was emitted with
(zero), not the big-endian encoding of 5. -/
theorem claim_C6_counterexample :
    (V2.runOps (V2.Builder.new 0x21 0x11) [.write_bytes [42], .set_length (some 5)]).bind
      V2.Builder.build = .ok (V2.PROTOCOL_PREFIX ++ [0x21, 0x11, 0, 0, 42]) ∧
    slice (V2.PROTOCOL_PREFIX ++ [0x21, 0x11, 0, 0, 42]) 14 16 ≠ V2.u16_to_be 5 :=
  ⟨by decide, by decide⟩

/-- Claim C6 amended: for every builder run from `Builder::new`: (1) if no
`set_length(Some(_))` call occurs, a successful `build()` returns bytes whose
offsets 14-15 hold the big-endian encoding of the output length minus 16, and
`build()` fails with the write-zero error when the accumulated payload does
not fit in a `u16`; (2) if the length field is `Some(n)` at build time the
accumulated bytes are returned unchanged (no back-patching), and bytes 14-15
hold `n` verbatim provided the `set_length(Some(n))` was issued before the
first write (the prolog snapshots the length field when first emitted). -/
theorem claim_C6_builder_length (vc afp n : Nat) (ops : List V2.BuilderOp) :
    ((∀ op ∈ ops, op.isSetSome = false) →
      (∀ out, (V2.runOps (V2.Builder.new vc afp) ops).bind V2.Builder.build = .ok out →
        16 ≤ out.length ∧ out.length - 16 ≤ 65535 ∧
        slice out 14 16 = V2.u16_to_be (out.length - 16)) ∧
      (∀ b', V2.runOps (V2.Builder.new vc afp) ops = .ok b' →
        ∀ h, b'.header = some h → 65535 < h.length - 16 →
          b'.build = .error .WriteZero)) ∧
    ((∀ op ∈ ops, op.isSetLength = false) →
      ∀ b', V2.runOps ((V2.Builder.new vc afp).set_length (some n)) ops = .ok b' →
        ∃ h, b'.build = .ok h ∧ b'.write_header = .ok { b' with header := some h } ∧
          slice h 14 16 = V2.u16_to_be n) := by
  constructor
  · intro hss
    have hops : ∀ op ∈ ops, op = .set_length none ∨ op.isSetLength = false := by
      intro op hop
      have hthis := hss op hop
      cases op with
      | set_length l =>
          cases l with
          | none => exact .inl rfl
          | some m => simp [V2.BuilderOp.isSetSome] at hthis
      | write_bytes bs => exact .inr rfl
      | write_tlv kind value => exact .inr rfl
      | reserve_capacity m => exact .inr rfl
    constructor
    · intro out hout
      rcases hrun : V2.runOps (V2.Builder.new vc afp) ops with e | b'
      · rw [hrun] at hout
        simp [Except.bind] at hout
      · rw [hrun] at hout
        rw [show (Except.ok b').bind V2.Builder.build = b'.build from rfl] at hout
        have facts := runOps_facts none ops (V2.Builder.new vc afp) b' hrun rfl rfl hops
          (fun h hsome => by simp [V2.Builder.new] at hsome)
        obtain ⟨ha', hl', _, _, hpref⟩ := facts
        obtain ⟨h, hwh, hminh, hbuild⟩ := build_eval_none b' ha' hl'
          (fun h hs => (hpref h hs).1)
        rw [hbuild] at hout
        split_ifs at hout with hbig
        have hout2 : h.take 14 ++ V2.u16_to_be (h.length - 16) ++ h.drop 16 = out :=
          Except.ok.inj hout
        subst hout2
        have hlens : (h.take 14 ++ V2.u16_to_be (h.length - 16) ++ h.drop 16).length =
            h.length := by
          simp only [List.length_append, List.length_take, List.length_drop, V2.u16_to_be,
            List.length_cons, List.length_nil]
          omega
        rw [hlens]
        refine ⟨hminh, by omega, ?_⟩
        exact slice_mid14 _ _ _ (by rw [List.length_take]; omega) rfl
    · intro b' hrun h hsome hbig
      have facts := runOps_facts none ops (V2.Builder.new vc afp) b' hrun rfl rfl hops
        (fun h hsome => by simp [V2.Builder.new] at hsome)
      obtain ⟨ha', hl', _, _, hpref⟩ := facts
      obtain ⟨h', hwh, hminh, hbuild⟩ := build_eval_none b' ha' hl'
        (fun h hs => (hpref h hs).1)
      have hbeq : b' = { b' with header := some h' } :=
        Except.ok.inj ((write_header_of_some b' h hsome).symm.trans hwh)
      have hh' : some h = some h' := by
        rw [hsome.symm.trans (congrArg V2.Builder.header hbeq)]
      have hh'' : h' = h := (Option.some.inj hh').symm
      subst hh''
      rw [hbuild, if_pos (by omega)]
  · intro hsl b' hrun
    have hops : ∀ op ∈ ops, op = .set_length (some n) ∨ op.isSetLength = false :=
      fun op hop => .inr (hsl op hop)
    have facts := runOps_facts (some n) ops ((V2.Builder.new vc afp).set_length (some n)) b'
      hrun rfl rfl hops
      (fun h hsome => by simp [V2.Builder.new, V2.Builder.set_length] at hsome)
    obtain ⟨ha', hl', hvc', hafp', hpref⟩ := facts
    obtain ⟨h, hwh, hbuild, hcase⟩ := build_eval_some b' n ha' hl'
    refine ⟨h, hbuild, hwh, ?_⟩
    rcases hcase with hsome | ⟨hnone, rfl⟩
    · have hp := hpref h hsome
      unfold slice
      rw [hp.2]
      simp only [Option.getD_some]
      exact prolog_drop14 _ _ _
    · unfold slice
      rw [List.take_of_length_le (le_of_eq (prolog_length _ _ _))]
      exact prolog_drop14 _ _ _

/-- Witness for the amended C6: building after a single one-byte write
back-patches bytes 14-15 to the big-endian payload length 1. -/
theorem claim_C6_witness :
    16 ≤ (V2.PROTOCOL_PREFIX ++ [0x21, 0x11, 0, 1, 42] : List Nat).length ∧
    (V2.PROTOCOL_PREFIX ++ [0x21, 0x11, 0, 1, 42] : List Nat).length - 16 ≤ 65535 ∧
    slice (V2.PROTOCOL_PREFIX ++ [0x21, 0x11, 0, 1, 42]) 14 16 =
      V2.u16_to_be ((V2.PROTOCOL_PREFIX ++ [0x21, 0x11, 0, 1, 42] : List Nat).length - 16) :=
  ((claim_C6_builder_length 0x21 0x11 0 [.write_bytes [42]]).1 (by decide)).1
    (V2.PROTOCOL_PREFIX ++ [0x21, 0x11, 0, 1, 42]) (by decide)

/-! ## v1 parser lemmas and claims C8, C9 -/

lemma findSuffix_bound : ∀ (input : List Nat) (e : Nat),
    V1.findSuffix input = some e → e + 2 ≤ input.length := by
  intro input
  induction input with
  | nil => intro e h; simp [V1.findSuffix] at h
  | cons x rest ih =>
      intro e h
      rw [V1.findSuffix] at h
      split_ifs at h with hx
      · obtain ⟨hx1, hx2⟩ := hx
        have he : e = 0 := (Option.some.inj h).symm
        subst he
        rcases rest with _ | ⟨y, rest'⟩
        · simp at hx2
        · simp only [List.length_cons]
          omega
      · rcases ho : V1.findSuffix rest with _ | e'
        · rw [ho] at h
          simp at h
        · rw [ho] at h
          have he : e = e' + 1 := by simpa using h.symm
          subst he
          have hb := ih e' ho
          simp only [List.length_cons]
          omega

lemma parse_addresses_error_ne {α : Type} (pa : List Nat → Option α) (parts : List (List Nat))
    (e : V1.ParseError) (h : V1.parse_addresses pa parts = .error e) :
    e ≠ .HeaderTooLong ∧ e ≠ .UnexpectedCharacters ∧ e ≠ .InvalidPrefix ∧
      e ≠ .MissingProtocol ∧ e ≠ .InvalidProtocol := by
  unfold V1.parse_addresses at h
  repeat' split at h
  all_goals first
    | (injection h; done)
    | injection h with h2
  all_goals subst h2
  all_goals decide

lemma parse_addresses_ok_shape {α : Type} (pa : List Nat → Option α) (parts : List (List Nat))
    (x : α × α × Nat × Nat) (rest : List (List Nat))
    (h : V1.parse_addresses pa parts = .ok (x, rest)) :
    ∃ a b c d, parts = a :: b :: c :: d :: rest := by
  unfold V1.parse_addresses at h
  repeat' split at h
  all_goals first
    | (injection h; done)
    | injection h with h2
  all_goals injection h2 with h3 h4
  all_goals subst h4
  all_goals exact ⟨_, _, _, _, rfl⟩

lemma splitn_length_le : ∀ (n sep : Nat) (s : List Nat), (V1.splitn n sep s).length ≤ n := by
  intro n
  induction n with
  | zero => intro sep s; simp [V1.splitn]
  | succ m ih =>
      intro sep s
      match m, ih with
      | 0, _ => simp [V1.splitn]
      | m' + 1, ih =>
          rw [V1.splitn]
          split
          · simp
          · next before after heq =>
              simp only [List.length_cons]
              have := ih sep after
              omega

lemma parse_header_toolong (s f : List Nat) (hgt : 107 < f.length) :
    V1.parse_header s f = .error .HeaderTooLong := by
  unfold V1.parse_header
  rw [if_pos (by simp only [V1.MAX_LENGTH]; omega)]

lemma parse_header_error_shape (s f : List Nat) (e : V1.ParseError)
    (h : V1.parse_header s f = .error e) (hf : ¬ 107 < f.length) :
    e ≠ .HeaderTooLong ∧ e ≠ .UnexpectedCharacters := by
  unfold V1.parse_header at h
  rw [if_neg (by simp only [V1.MAX_LENGTH]; omega)] at h
  split at h
  next heq1 =>
    obtain rfl := Except.error.inj h
    decide
  next first parts heq1 =>
  split_ifs at h with hpre
  · obtain rfl := Except.error.inj h
    decide
  · split at h
    next =>
      obtain rfl := Except.error.inj h
      decide
    next protocol parts2 =>
    split_ifs at h with ht4 ht6 hunk hnil
    · split at h
      next e' heqA =>
        obtain rfl := Except.error.inj h
        have key := parse_addresses_error_ne _ _ _ heqA
        exact ⟨key.1, key.2.1⟩
      next x remaining heqA =>
        split_ifs at h with hrem
        exfalso
        obtain ⟨a, b, c, d, hshape⟩ := parse_addresses_ok_shape _ _ _ _ heqA
        have hlen6 := splitn_length_le V1.PARTS V1.SEPARATOR s
        rw [heq1, hshape] at hlen6
        simp only [List.length_cons, V1.PARTS] at hlen6
        exact hrem (List.eq_nil_of_length_eq_zero (by omega))
    · split at h
      next e' heqA =>
        obtain rfl := Except.error.inj h
        have key := parse_addresses_error_ne _ _ _ heqA
        exact ⟨key.1, key.2.1⟩
      next x remaining heqA =>
        split_ifs at h with hrem
        exfalso
        obtain ⟨a, b, c, d, hshape⟩ := parse_addresses_ok_shape _ _ _ _ heqA
        have hlen6 := splitn_length_le V1.PARTS V1.SEPARATOR s
        rw [heq1, hshape] at hlen6
        simp only [List.length_cons, V1.PARTS] at hlen6
        exact hrem (List.eq_nil_of_length_eq_zero (by omega))
    · obtain rfl := Except.error.inj h
      decide
    · obtain rfl := Except.error.inj h
      decide

/-- Claim C8: v1 missing-CRLF classification.  If the input contains no CRLF,
`try_from` fails with `HeaderTooLong` when the input is at least 107 bytes
long and with `MissingNewLine` otherwise; when the first CRLF ends at byte
`e + 2`, `try_from` fails with `HeaderTooLong` exactly when that frame
exceeds 107 bytes. -/
theorem claim_C8_v1_crlf_classification (input : List Nat) :
    (V1.findSuffix input = none →
      (107 ≤ input.length → V1.try_from input = .error .HeaderTooLong) ∧
      (input.length < 107 → V1.try_from input = .error .MissingNewLine)) ∧
    (∀ e, V1.findSuffix input = some e →
      (V1.try_from input = .error .HeaderTooLong ↔ 107 < e + 2)) := by
  constructor
  · intro hn
    unfold V1.try_from
    rw [hn]
    constructor
    · intro hge
      rw [if_pos (by simp only [V1.MAX_LENGTH]; omega)]
    · intro hlt
      rw [if_neg (by simp only [V1.MAX_LENGTH]; omega)]
  · intro e he
    unfold V1.try_from
    rw [he]
    have hband := findSuffix_bound input e he
    have hflen : (input.take (e + V1.PROTOCOL_SUFFIX.length)).length = e + 2 := by
      rw [List.length_take]
      simp only [V1.PROTOCOL_SUFFIX, List.length_cons, List.length_nil]
      omega
    constructor
    · intro h
      by_contra hle
      exact absurd rfl
        ((parse_header_error_shape _ _ _ h (by rw [hflen]; omega)).1)
    · intro hgt
      exact parse_header_toolong _ _ (by rw [hflen]; omega)

/-- Witness for C8 at the concrete frame "PROXY UNKNOWN\r\n" (CRLF at offset
13, frame length 15 which does not exceed 107). -/
theorem claim_C8_witness :
    V1.findSuffix (strBytes "PROXY UNKNOWN\r\n") = some 13 ∧
    ¬ (V1.try_from (strBytes "PROXY UNKNOWN\r\n") =
        .error .HeaderTooLong) :=
  ⟨by decide, fun h =>
    absurd (((claim_C8_v1_crlf_classification
      (strBytes "PROXY UNKNOWN\r\n")).2 13 (by decide)).1 h) (by decide)⟩

lemma parseU16Digits_space (s : List Nat) (hs : 32 ∈ s) :
    ∀ acc, V1.parseU16Digits s acc = none := by
  induction s with
  | nil => simp at hs
  | cons x rest ih =>
    intro acc
    unfold V1.parseU16Digits
    rcases List.mem_cons.mp hs with h32 | hmem
    · obtain rfl := h32.symm
      rw [if_neg (by decide)]
    · by_cases hd : V1.isDigit x = true
      · rw [if_pos hd]
        by_cases hover : acc * 10 + (x - 48) > 65535
        · rw [if_pos hover]
        · rw [if_neg hover]
          exact ih hmem _
      · rw [if_neg hd]

lemma parse_u16_space (q : List Nat) (h : 32 ∈ q) : V1.parse_u16 q = none := by
  have key : ∀ d : List Nat, 32 ∈ d →
      (match d with
        | [] => (none : Option Nat)
        | _ => V1.parseU16Digits d 0) = none := by
    intro d hd
    rcases d with _ | ⟨y, r⟩
    · simp at hd
    · exact parseU16Digits_space _ hd 0
  rcases q with _ | ⟨x, rest⟩
  · simp at h
  · by_cases hx : x = 43
    · subst hx
      have h32 : 32 ∈ rest := by
        rcases List.mem_cons.mp h with h' | h'
        · exact absurd h' (by decide)
        · exact h'
      exact key rest h32
    · unfold V1.parse_u16
      split
      next r heq =>
        exact absurd (List.cons.inj heq).1 hx
      next =>
        exact key _ h

lemma parse_addresses_dst_space {α : Type} (pa : List Nat → Option α)
    (a b p q : List Nat) (sa da : α) (sp : Nat)
    (ha : pa a = some sa) (hb : pa b = some da)
    (hp0 : ¬(p.head? = some 48 ∧ p ≠ V1.ZERO)) (hp : V1.parse_u16 p = some sp)
    (hq : 32 ∈ q) :
    ∃ cause, V1.parse_addresses pa [a, b, p, q] =
      .error (.InvalidDestinationPort cause) := by
  have hqn := parse_u16_space q hq
  by_cases hq0 : q.head? = some 48 ∧ q ≠ V1.ZERO
  · refine ⟨none, ?_⟩
    simp only [V1.parse_addresses, ha, hb, if_neg hp0, hp, if_pos hq0]
  · refine ⟨some (), ?_⟩
    simp only [V1.parse_addresses, ha, hb, if_neg hp0, hp, if_neg hq0, hqn]

/-- Claim C9 counterexample: a TCP4 line with a valid four-field body and one
trailing space-separated part fails with `InvalidDestinationPort`, not
`UnexpectedCharacters`: `splitn(6)` folds the extra part into the sixth field,
so the destination-port token "443 extra" fails `u16` parsing first. -/
theorem claim_C9_counterexample :
    V1.try_from (strBytes "PROXY TCP4 1.2.3.4 5.6.7.8 80 443 extra\r\n") =
      .error (.InvalidDestinationPort (some ())) ∧
    V1.ParseError.InvalidDestinationPort (some ()) ≠ .UnexpectedCharacters :=
  ⟨by decide, by decide⟩

/-- Claim C9 (amended): the v1 parser can never return `UnexpectedCharacters`
(the `splitn(6, ' ')` call produces at most six parts, so after the four
address/port fields no fifth part can remain), and a trailing space-separated
part instead lands inside the sixth `splitn` field, making parsing fail with
`InvalidDestinationPort`. -/
theorem claim_C9_amended :
    (∀ input, V1.try_from input ≠ .error .UnexpectedCharacters) ∧
    (∀ s f proto a b p q,
      ¬ 107 < f.length →
      V1.splitn V1.PARTS V1.SEPARATOR s =
        [V1.PROTOCOL_PREFIX, proto, a, b, p, q] →
      ((proto = V1.TCP4 ∧ ∃ sa da sp,
          V1.ipv4_from_str a = some sa ∧ V1.ipv4_from_str b = some da ∧
          ¬(p.head? = some 48 ∧ p ≠ V1.ZERO) ∧ V1.parse_u16 p = some sp) ∨
       (proto = V1.TCP6 ∧ ∃ sa da sp,
          V1.ipv6_from_str a = some sa ∧ V1.ipv6_from_str b = some da ∧
          ¬(p.head? = some 48 ∧ p ≠ V1.ZERO) ∧ V1.parse_u16 p = some sp)) →
      32 ∈ q →
      ∃ cause, V1.parse_header s f = .error (.InvalidDestinationPort cause)) := by
  constructor
  · intro input h
    cases hfs : V1.findSuffix input with
    | none =>
      unfold V1.try_from at h
      rw [hfs] at h
      have h2 := Except.error.inj h
      split at h2 <;> simp at h2
    | some e =>
      unfold V1.try_from at h
      rw [hfs] at h
      have h2 : V1.parse_header (input.take e)
          (input.take (e + V1.PROTOCOL_SUFFIX.length)) =
          .error .UnexpectedCharacters := h
      by_cases hlen : 107 < (input.take (e + V1.PROTOCOL_SUFFIX.length)).length
      · rw [parse_header_toolong _ _ hlen] at h2
        exact absurd (Except.error.inj h2) (by decide)
      · exact absurd rfl (parse_header_error_shape _ _ _ h2 hlen).2
  · intro s f proto a b p q hf hsplit hdis hq
    rcases hdis with ⟨rfl, sa, da, sp, ha, hb, hp0, hp⟩ | ⟨rfl, sa, da, sp, ha, hb, hp0, hp⟩
    · obtain ⟨cause, hpa⟩ :=
        parse_addresses_dst_space V1.ipv4_from_str a b p q sa da sp ha hb hp0 hp hq
      refine ⟨cause, ?_⟩
      simp only [V1.parse_header, hsplit]
      rw [if_neg (by simp only [V1.MAX_LENGTH]; omega)]
      simp [hpa]
    · obtain ⟨cause, hpa⟩ :=
        parse_addresses_dst_space V1.ipv6_from_str a b p q sa da sp ha hb hp0 hp hq
      refine ⟨cause, ?_⟩
      simp only [V1.parse_header, hsplit]
      rw [if_neg (by simp only [V1.MAX_LENGTH]; omega)]
      simp [hpa]
      exact fun hcon => absurd hcon (by decide)

/-- Witness for the amended C9 at the concrete line
"PROXY TCP4 1.2.3.4 5.6.7.8 80 443 extra\r\n". -/
theorem claim_C9_witness :
    32 ∈ strBytes "443 extra" ∧
    ∃ cause, V1.parse_header (strBytes "PROXY TCP4 1.2.3.4 5.6.7.8 80 443 extra")
      (strBytes "PROXY TCP4 1.2.3.4 5.6.7.8 80 443 extra\r\n") =
      .error (.InvalidDestinationPort cause) :=
  ⟨by decide, claim_C9_amended.2
    (strBytes "PROXY TCP4 1.2.3.4 5.6.7.8 80 443 extra")
    (strBytes "PROXY TCP4 1.2.3.4 5.6.7.8 80 443 extra\r\n")
    V1.TCP4 (strBytes "1.2.3.4") (strBytes "5.6.7.8") (strBytes "80")
    (strBytes "443 extra") (by decide) (by decide)
    (Or.inl ⟨rfl, ⟨1, 2, 3, 4⟩, ⟨5, 6, 7, 8⟩, 80, by decide, by decide,
      by decide, by decide⟩) (by decide)⟩

lemma toDecimalAux_zero (fuel : Nat) : V1.toDecimalAux fuel 0 = [] := by
  cases fuel <;> simp [V1.toDecimalAux]

lemma toDecimalAux_mem (fuel : Nat) : ∀ (n : Nat), ∀ x ∈ V1.toDecimalAux fuel n,
    48 ≤ x ∧ x ≤ 57 := by
  induction fuel with
  | zero => intro n x hx; simp [V1.toDecimalAux] at hx
  | succ fuel ih =>
    intro n x hx
    unfold V1.toDecimalAux at hx
    split_ifs at hx with h0
    · simp at hx
    · rcases List.mem_append.mp hx with h | h
      · exact ih _ _ h
      · simp at h
        omega

lemma toDecimal_mem (n : Nat) : ∀ x ∈ V1.toDecimal n, 48 ≤ x ∧ x ≤ 57 := by
  unfold V1.toDecimal
  split_ifs with h0
  · intro x hx
    simp at hx
    omega
  · exact toDecimalAux_mem n n

lemma decValue_append_last (u : List Nat) (d : Nat) :
    V1.decValue (u ++ [d]) = V1.decValue u * 10 + (d - 48) := by
  simp [V1.decValue, List.foldl_append]

lemma toDecimalAux_val (fuel : Nat) : ∀ n, n ≤ fuel →
    V1.decValue (V1.toDecimalAux fuel n) = n := by
  induction fuel with
  | zero =>
    intro n hn
    have : n = 0 := by omega
    subst this
    simp [V1.toDecimalAux, V1.decValue]
  | succ fuel ih =>
    intro n hn
    unfold V1.toDecimalAux
    split_ifs with h0
    · simp [V1.decValue, h0]
    · rw [decValue_append_last, ih (n / 10) (by omega)]
      omega

lemma toDecimal_val (n : Nat) : V1.decValue (V1.toDecimal n) = n := by
  unfold V1.toDecimal
  split_ifs with h0
  · simp [V1.decValue, h0]
  · exact toDecimalAux_val n n (le_refl n)

lemma toDecimalAux_len (fuel : Nat) : ∀ n k, n < 10 ^ k →
    (V1.toDecimalAux fuel n).length ≤ k := by
  induction fuel with
  | zero => intro n k _; simp [V1.toDecimalAux]
  | succ fuel ih =>
    intro n k hk
    unfold V1.toDecimalAux
    split_ifs with h0
    · simp
    · have hk1 : 1 ≤ k := by
        rcases Nat.eq_zero_or_pos k with rfl | h
        · simp at hk
          omega
        · exact h
      have hpow : 10 ^ k = 10 ^ (k - 1) * 10 := by
        rw [← pow_succ]
        congr 1
        omega
      have hrec := ih (n / 10) (k - 1) (by omega)
      simp only [List.length_append, List.length_cons, List.length_nil]
      omega

lemma toDecimal_len (n k : Nat) (hk : 1 ≤ k) (h : n < 10 ^ k) :
    (V1.toDecimal n).length ≤ k := by
  unfold V1.toDecimal
  split_ifs with h0
  · simpa using hk
  · exact toDecimalAux_len n n k h

lemma toDecimalAux_head (fuel : Nat) : ∀ n, 0 < n → n ≤ fuel →
    ∃ d rest, V1.toDecimalAux fuel n = d :: rest ∧ 49 ≤ d ∧ d ≤ 57 := by
  induction fuel with
  | zero => intro n h0 h1; omega
  | succ fuel ih =>
    intro n h0 h1
    unfold V1.toDecimalAux
    rw [if_neg (by omega)]
    by_cases h10 : n / 10 = 0
    · rw [h10, toDecimalAux_zero]
      refine ⟨48 + n % 10, [], rfl, by omega, by omega⟩
    · obtain ⟨d, rest, heq, hd1, hd2⟩ := ih (n / 10) (by omega) (by omega)
      exact ⟨d, rest ++ [48 + n % 10], by rw [heq]; rfl, hd1, hd2⟩

lemma toDecimal_head (n : Nat) :
    ∃ d rest, V1.toDecimal n = d :: rest ∧ 48 ≤ d ∧ d ≤ 57 ∧ (0 < n → 49 ≤ d) := by
  unfold V1.toDecimal
  split_ifs with h0
  · exact ⟨48, [], rfl, by omega, by omega, by omega⟩
  · obtain ⟨d, rest, heq, h1, h2⟩ := toDecimalAux_head n n (by omega) (le_refl n)
    exact ⟨d, rest, heq, by omega, h2, fun _ => h1⟩

lemma toHexAux_zero (fuel : Nat) : V1.toHexAux fuel 0 = [] := by
  cases fuel <;> simp [V1.toHexAux]

lemma toHexAux_mem (fuel : Nat) : ∀ (n : Nat), ∀ x ∈ V1.toHexAux fuel n,
    V1.isHexDigit x = true := by
  induction fuel with
  | zero => intro n x hx; simp [V1.toHexAux] at hx
  | succ fuel ih =>
    intro n x hx
    unfold V1.toHexAux at hx
    split_ifs at hx with h0
    · simp at hx
    · rcases List.mem_append.mp hx with h | h
      · exact ih _ _ h
      · simp at h
        subst h
        have : n % 16 < 16 := Nat.mod_lt _ (by omega)
        unfold V1.hexDigitByte
        split_ifs with hlt
        · simp [V1.isHexDigit]
          omega
        · simp [V1.isHexDigit]
          omega

lemma toHex_mem (n : Nat) : ∀ x ∈ V1.toHex n, V1.isHexDigit x = true := by
  unfold V1.toHex
  split_ifs with h0
  · intro x hx
    simp at hx
    subst hx
    decide
  · exact toHexAux_mem n n

lemma hexValue_append_last (u : List Nat) (d : Nat) :
    V1.hexValue (u ++ [d]) = V1.hexValue u * 16 + V1.hexDigitVal d := by
  simp [V1.hexValue, List.foldl_append]

lemma hexDigitVal_hexDigitByte (d : Nat) (h : d < 16) :
    V1.hexDigitVal (V1.hexDigitByte d) = d := by
  unfold V1.hexDigitByte V1.hexDigitVal
  split_ifs <;> simp_all <;> omega

lemma toHexAux_val (fuel : Nat) : ∀ n, n ≤ fuel →
    V1.hexValue (V1.toHexAux fuel n) = n := by
  induction fuel with
  | zero =>
    intro n hn
    have : n = 0 := by omega
    subst this
    simp [V1.toHexAux, V1.hexValue]
  | succ fuel ih =>
    intro n hn
    unfold V1.toHexAux
    split_ifs with h0
    · simp [V1.hexValue, h0]
    · rw [hexValue_append_last, ih (n / 16) (by omega),
        hexDigitVal_hexDigitByte _ (Nat.mod_lt _ (by omega))]
      omega

lemma toHex_val (n : Nat) : V1.hexValue (V1.toHex n) = n := by
  unfold V1.toHex
  split_ifs with h0
  · simp [V1.hexValue, V1.hexDigitVal, h0]
  · exact toHexAux_val n n (le_refl n)

lemma toHexAux_len (fuel : Nat) : ∀ n k, n < 16 ^ k →
    (V1.toHexAux fuel n).length ≤ k := by
  induction fuel with
  | zero => intro n k _; simp [V1.toHexAux]
  | succ fuel ih =>
    intro n k hk
    unfold V1.toHexAux
    split_ifs with h0
    · simp
    · have hk1 : 1 ≤ k := by
        rcases Nat.eq_zero_or_pos k with rfl | h
        · simp at hk
          omega
        · exact h
      have hpow : 16 ^ k = 16 ^ (k - 1) * 16 := by
        rw [← pow_succ]
        congr 1
        omega
      have hrec := ih (n / 16) (k - 1) (by omega)
      simp only [List.length_append, List.length_cons, List.length_nil]
      omega

lemma toHex_len (n k : Nat) (hk : 1 ≤ k) (h : n < 16 ^ k) :
    (V1.toHex n).length ≤ k := by
  unfold V1.toHex
  split_ifs with h0
  · simpa using hk
  · exact toHexAux_len n n k h

lemma toHex_ne_nil (n : Nat) : V1.toHex n ≠ [] := by
  unfold V1.toHex
  split_ifs with h0
  · simp
  · cases hfe : n with
    | zero => omega
    | succ m =>
      unfold V1.toHexAux
      rw [if_neg (by omega)]
      simp

lemma takeWhile_append_all (p : Nat → Bool) (u rest : List Nat)
    (hu : ∀ x ∈ u, p x = true)
    (hr : ∀ y, rest.head? = some y → p y = false) :
    (u ++ rest).takeWhile p = u ∧ (u ++ rest).dropWhile p = rest := by
  induction u with
  | nil =>
    cases rest with
    | nil => simp
    | cons y r =>
      have hy := hr y rfl
      simp [List.takeWhile_cons, List.dropWhile_cons, hy]
  | cons x u' ih =>
    have hpx := hu x (by simp)
    have hrec := ih (fun z hz => hu z (by simp [hz]))
    simp [List.takeWhile_cons, List.dropWhile_cons, hpx, hrec.1, hrec.2]

lemma readDecOctet_render (n : Nat) (rest : List Nat) (hn : n < 256)
    (hr : ∀ y, rest.head? = some y → V1.isDigit y = false) :
    V1.readDecOctet (V1.toDecimal n ++ rest) = some (n, rest) := by
  have hmem : ∀ x ∈ V1.toDecimal n, V1.isDigit x = true := by
    intro x hx
    have := toDecimal_mem n x hx
    simp [V1.isDigit]
    omega
  obtain ⟨htw, hdw⟩ := takeWhile_append_all V1.isDigit _ rest hmem hr
  obtain ⟨d, rest0, heq, h48, h57, h49⟩ := toDecimal_head n
  have hval := toDecimal_val n
  have hlen3 := toDecimal_len n 3 (by omega) (by omega)
  simp only [V1.readDecOctet, htw, hdw]
  rw [heq]
  rw [heq] at hval hlen3
  have hlc : (d :: rest0).length = rest0.length + 1 := rfl
  have hcond1 : ¬(d :: rest0 = []) := by simp
  have hcond2 : ¬((d :: rest0).length > 3) := by omega
  have hcond3 :
      ¬(decide ((d :: rest0).head? = some 48) &&
        decide ((d :: rest0).length > 1)) = true := by
    simp only [List.head?_cons, Option.some.injEq, Bool.and_eq_true,
      decide_eq_true_eq]
    rintro ⟨hd48, hlen1⟩
    rcases Nat.eq_zero_or_pos n with h0 | h0
    · have h' : (48 : Nat) :: ([] : List Nat) = d :: rest0 := by
        rw [← heq, h0]
        rfl
      have h2 := (List.cons.inj h').2
      rw [← h2] at hlen1
      simp at hlen1
    · have := h49 h0
      omega
  have hcond4 : ¬(V1.decValue (d :: rest0) > 255) := by omega
  rw [if_neg hcond1, if_neg hcond2, if_neg hcond3, if_neg hcond4, hval]

lemma readHexGroup_render (g : Nat) (rest : List Nat) (hg : g < 65536)
    (hr : ∀ y, rest.head? = some y → V1.isHexDigit y = false) :
    V1.readHexGroup (V1.toHex g ++ rest) = some (g, rest) := by
  obtain ⟨htw, hdw⟩ := takeWhile_append_all V1.isHexDigit _ rest (toHex_mem g) hr
  have hval := toHex_val g
  have hlen := toHex_len g 4 (by omega) (by omega)
  simp only [V1.readHexGroup, htw, hdw]
  split_ifs with hc1 hc2
  · exact absurd hc1 (toHex_ne_nil g)
  · omega
  · rw [hval]

lemma expectByte_cons (x : Nat) (rest : List Nat) :
    V1.expectByte x (x :: rest) = some rest := by
  simp [V1.expectByte]

lemma readDecOctet_rest (s : List Nat) (a : Nat) (s1 : List Nat)
    (h : V1.readDecOctet s = some (a, s1)) : s1 = s.dropWhile V1.isDigit := by
  simp only [V1.readDecOctet] at h
  split_ifs at h
  have h2 := Option.some.inj h
  exact (Prod.mk.inj h2).2.symm

lemma read_ipv4_fail (s : List Nat)
    (h : ((s.dropWhile V1.isDigit).head?) ≠ some 46) :
    V1.read_ipv4_addr s = none := by
  unfold V1.read_ipv4_addr
  cases hoct : V1.readDecOctet s with
  | none => simp
  | some v =>
    obtain ⟨a, s1⟩ := v
    have hs1 := readDecOctet_rest s a s1 hoct
    have hexp : V1.expectByte 46 s1 = none := by
      unfold V1.expectByte
      cases hcase : s1 with
      | nil => rfl
      | cons y r =>
        show (if y = 46 then some r else none) = none
        rw [if_neg]
        intro hy
        apply h
        rw [← hs1, hcase, hy]
        rfl
    simp [hexp]

lemma head_cons_not_digit (c : Nat) (hc : V1.isDigit c = false) (u : List Nat) :
    ∀ y, (c :: u).head? = some y → V1.isDigit y = false := by
  intro y hy
  have h := Option.some.inj hy
  rw [← h]
  exact hc

lemma readOctetDot (n : Nat) (rest : List Nat) (hn : n < 256) :
    V1.readDecOctet (V1.toDecimal n ++ 46 :: rest) = some (n, 46 :: rest) :=
  readDecOctet_render n (46 :: rest) hn (head_cons_not_digit 46 (by decide) rest)

lemma read_ipv4_render (ip : V1.Ipv4Addr) (rest : List Nat) (hwf : ip.wf)
    (hr : ∀ y, rest.head? = some y → V1.isDigit y = false) :
    V1.read_ipv4_addr (ip.display ++ rest) = some (ip, rest) := by
  obtain ⟨ha, hb, hc, hd⟩ := hwf
  unfold V1.Ipv4Addr.display
  simp only [List.append_assoc, List.singleton_append, List.cons_append,
    List.nil_append]
  have h4 := readDecOctet_render ip.d rest hd hr
  have h3 := readOctetDot ip.c (V1.toDecimal ip.d ++ rest) hc
  have h2 := readOctetDot ip.b
    (V1.toDecimal ip.c ++ 46 :: (V1.toDecimal ip.d ++ rest)) hb
  have h1 := readOctetDot ip.a
    (V1.toDecimal ip.b ++ 46 ::
      (V1.toDecimal ip.c ++ 46 :: (V1.toDecimal ip.d ++ rest))) ha
  simp only [V1.read_ipv4_addr, h1, expectByte_cons, h2, h3, h4]

lemma ipv4_from_str_display (ip : V1.Ipv4Addr) (hwf : ip.wf) :
    V1.ipv4_from_str ip.display = some ip := by
  have h := read_ipv4_render ip [] hwf (by intro y hy; simp at hy)
  rw [List.append_nil] at h
  simp only [V1.ipv4_from_str, h]

lemma readHexGroup_nil : V1.readHexGroup [] = none := by
  simp [V1.readHexGroup]

lemma readHexGroup_colon (r : List Nat) : V1.readHexGroup (58 :: r) = none := by
  simp [V1.readHexGroup, List.takeWhile_cons, V1.isHexDigit]

lemma readDecOctet_nil : V1.readDecOctet [] = none := by
  simp [V1.readDecOctet]

lemma read_ipv4_addr_nil : V1.read_ipv4_addr [] = none := by
  simp [V1.read_ipv4_addr, readDecOctet_nil]

lemma readSep_zero {α : Type} (p : List Nat → Option (α × List Nat)) (s : List Nat) :
    V1.readSep 0 p s = p s := by
  simp [V1.readSep]

lemma readSep_pos {α : Type} (i : Nat) (hi : 1 ≤ i)
    (p : List Nat → Option (α × List Nat)) (r : List Nat) :
    V1.readSep i p (58 :: r) = p r := by
  unfold V1.readSep
  rw [if_neg (by omega)]
  simp only [expectByte_cons]

lemma readSep_nil {α : Type} (i : Nat) (hi : 1 ≤ i)
    (p : List Nat → Option (α × List Nat)) :
    V1.readSep i p [] = none := by
  unfold V1.readSep
  rw [if_neg (by omega)]
  rfl

lemma dropWhile_head_ne46 (u : List Nat) : ∀ rest : List Nat,
    (∀ x ∈ u, x ≠ 46) →
    (rest = [] ∨ ∃ r, rest = 58 :: r) →
    ((u ++ rest).dropWhile V1.isDigit).head? ≠ some 46 := by
  induction u with
  | nil =>
    intro rest _ hrest
    rcases hrest with rfl | ⟨r, rfl⟩
    · simp
    · rw [List.nil_append, List.dropWhile_cons, if_neg (by decide)]
      simp
  | cons x u' ih =>
    intro rest hu hrest
    have hx46 := hu x (by simp)
    by_cases hd : V1.isDigit x = true
    · rw [List.cons_append, List.dropWhile_cons, if_pos hd]
      exact ih rest (fun z hz => hu z (by simp [hz])) hrest
    · rw [List.cons_append, List.dropWhile_cons, if_neg hd]
      simp [hx46]

lemma hex_fail_suffix (i : Nat) (suffix : List Nat)
    (hsuf : suffix = [] ∨ ∃ r, suffix = 58 :: 58 :: r) :
    V1.readSep i V1.readHexGroup suffix = none := by
  unfold V1.readSep
  rcases hsuf with rfl | ⟨r, rfl⟩
  · split_ifs
    · exact readHexGroup_nil
    · rfl
  · split_ifs
    · exact readHexGroup_colon _
    · simp only [expectByte_cons]
      exact readHexGroup_colon r

lemma ipv4_fail_suffix (i : Nat) (suffix : List Nat)
    (hsuf : suffix = [] ∨ ∃ r, suffix = 58 :: 58 :: r) :
    V1.readSep i V1.read_ipv4_addr suffix = none := by
  unfold V1.readSep
  rcases hsuf with rfl | ⟨r, rfl⟩
  · split_ifs
    · exact read_ipv4_addr_nil
    · rfl
  · split_ifs
    · exact read_ipv4_fail _ (by
        rw [List.dropWhile_cons, if_neg (by decide)]
        simp)
    · simp only [expectByte_cons]
      exact read_ipv4_fail (58 :: r) (by
        rw [List.dropWhile_cons, if_neg (by decide)]
        simp)

lemma allColon_cons (g : Nat) (tl : List Nat) :
    V1.allColon (g :: tl) = 58 :: (V1.toHex g ++ V1.allColon tl) := by
  simp [V1.allColon]

lemma joinColon_cons (g : Nat) (tl : List Nat) :
    V1.joinColon (g :: tl) = V1.toHex g ++ V1.allColon tl := rfl

lemma allColon_mem (gs : List Nat) : ∀ x ∈ V1.allColon gs,
    x = 58 ∨ V1.isHexDigit x = true := by
  induction gs with
  | nil => intro x hx; simp [V1.allColon] at hx
  | cons g tl ih =>
    intro x hx
    rw [allColon_cons] at hx
    rcases List.mem_cons.mp hx with rfl | hx2
    · exact Or.inl rfl
    · rcases List.mem_append.mp hx2 with h | h
      · exact Or.inr (toHex_mem g x h)
      · exact ih x h

lemma joinColon_mem (gs : List Nat) : ∀ x ∈ V1.joinColon gs,
    x = 58 ∨ V1.isHexDigit x = true := by
  cases gs with
  | nil => intro x hx; simp [V1.joinColon] at hx
  | cons g tl =>
    intro x hx
    rw [joinColon_cons] at hx
    rcases List.mem_append.mp hx with h | h
    · exact Or.inr (toHex_mem g x h)
    · exact allColon_mem tl x h

lemma hexish_ne46 (x : Nat) (h : x = 58 ∨ V1.isHexDigit x = true) : x ≠ 46 := by
  rcases h with rfl | h
  · omega
  · intro hc
    rw [hc] at h
    exact absurd h (by decide)

lemma ipv4_fail_group (g : Nat) (tl suffix : List Nat)
    (hsuf : suffix = [] ∨ ∃ r, suffix = 58 :: 58 :: r) :
    V1.read_ipv4_addr (V1.toHex g ++ (V1.allColon tl ++ suffix)) = none := by
  apply read_ipv4_fail
  rw [← List.append_assoc]
  apply dropWhile_head_ne46
  · intro x hx
    rcases List.mem_append.mp hx with h | h
    · exact hexish_ne46 x (Or.inr (toHex_mem g x h))
    · exact hexish_ne46 x (allColon_mem tl x h)
  · rcases hsuf with rfl | ⟨r, rfl⟩
    · exact Or.inl rfl
    · exact Or.inr ⟨58 :: r, rfl⟩

lemma allColon_suffix_shape (tl suffix : List Nat)
    (hsuf : suffix = [] ∨ ∃ r, suffix = 58 :: 58 :: r) :
    V1.allColon tl ++ suffix = [] ∨ ∃ r', V1.allColon tl ++ suffix = 58 :: r' := by
  cases tl with
  | nil =>
    rcases hsuf with rfl | ⟨r, rfl⟩
    · exact Or.inl rfl
    · exact Or.inr ⟨58 :: r, rfl⟩
  | cons t tl' =>
    refine Or.inr ⟨V1.toHex t ++ V1.allColon tl' ++ suffix, ?_⟩
    rw [allColon_cons]
    simp [List.append_assoc]

lemma allColon_suffix_head (tl suffix : List Nat)
    (hsuf : suffix = [] ∨ ∃ r, suffix = 58 :: 58 :: r) :
    ∀ y, (V1.allColon tl ++ suffix).head? = some y → V1.isHexDigit y = false := by
  intro y hy
  rcases allColon_suffix_shape tl suffix hsuf with h | ⟨r', h⟩
  · rw [h] at hy
    simp at hy
  · rw [h] at hy
    have h58 := Option.some.inj hy
    rw [← h58]
    decide

lemma read_groups_allColon (gs : List Nat) : ∀ (slots i : Nat) (suffix : List Nat),
    (∀ g ∈ gs, g < 65536) → gs.length ≤ slots → 1 ≤ i →
    (suffix = [] ∨ ∃ r, suffix = 58 :: 58 :: r) →
    V1.read_groups slots i (V1.allColon gs ++ suffix) = (gs, false, suffix) := by
  induction gs with
  | nil =>
    intro slots i suffix hb hlen hi hsuf
    simp only [V1.allColon, List.map_nil, List.flatten_nil, List.nil_append]
    cases slots with
    | zero => rfl
    | succ slots' =>
      unfold V1.read_groups
      have hips := ipv4_fail_suffix i suffix hsuf
      have hhex := hex_fail_suffix i suffix hsuf
      by_cases h2 : slots' + 1 ≥ 2
      · simp only [if_pos h2, hips, hhex]
      · simp only [if_neg h2, hhex]
  | cons g tl ih =>
    intro slots i suffix hb hlen hi hsuf
    have hlen' : tl.length + 1 ≤ slots := by simpa using hlen
    obtain ⟨slots', rfl⟩ : ∃ s', slots = s' + 1 := ⟨slots - 1, by omega⟩
    rw [allColon_cons, List.cons_append, List.append_assoc]
    unfold V1.read_groups
    have hipfail : V1.readSep i V1.read_ipv4_addr
        (58 :: (V1.toHex g ++ (V1.allColon tl ++ suffix))) = none := by
      rw [readSep_pos i hi]
      exact ipv4_fail_group g tl suffix hsuf
    have hhexok : V1.readSep i V1.readHexGroup
        (58 :: (V1.toHex g ++ (V1.allColon tl ++ suffix))) =
        some (g, V1.allColon tl ++ suffix) := by
      rw [readSep_pos i hi]
      exact readHexGroup_render g _ (hb g (by simp))
        (allColon_suffix_head tl suffix hsuf)
    have hrec := ih slots' (i + 1) suffix (fun z hz => hb z (by simp [hz]))
      (by omega) (by omega) hsuf
    by_cases h2 : slots' + 1 ≥ 2
    · simp only [if_pos h2, hipfail, hhexok, hrec]
    · simp only [if_neg h2, hhexok, hrec]

lemma read_groups_joinColon (gs : List Nat) (slots : Nat) (suffix : List Nat)
    (hb : ∀ g ∈ gs, g < 65536) (hlen : gs.length ≤ slots)
    (hsuf : suffix = [] ∨ ∃ r, suffix = 58 :: 58 :: r) :
    V1.read_groups slots 0 (V1.joinColon gs ++ suffix) = (gs, false, suffix) := by
  cases gs with
  | nil =>
    simp only [V1.joinColon, List.nil_append]
    cases slots with
    | zero => rfl
    | succ slots' =>
      unfold V1.read_groups
      have hips : V1.read_ipv4_addr suffix = none := by
        rcases hsuf with rfl | ⟨r, rfl⟩
        · exact read_ipv4_addr_nil
        · exact read_ipv4_fail _ (by
            rw [List.dropWhile_cons, if_neg (by decide)]
            simp)
      have hhex : V1.readHexGroup suffix = none := by
        rcases hsuf with rfl | ⟨r, rfl⟩
        · exact readHexGroup_nil
        · exact readHexGroup_colon _
      by_cases h2 : slots' + 1 ≥ 2
      · simp only [if_pos h2, readSep_zero, hips, hhex]
      · simp only [if_neg h2, readSep_zero, hhex]
  | cons g tl =>
    have hlen' : tl.length + 1 ≤ slots := by simpa using hlen
    obtain ⟨slots', rfl⟩ : ∃ s', slots = s' + 1 := ⟨slots - 1, by omega⟩
    rw [joinColon_cons, List.append_assoc]
    unfold V1.read_groups
    have hipfail : V1.read_ipv4_addr (V1.toHex g ++ (V1.allColon tl ++ suffix)) = none :=
      ipv4_fail_group g tl suffix hsuf
    have hhexok : V1.readHexGroup (V1.toHex g ++ (V1.allColon tl ++ suffix)) =
        some (g, V1.allColon tl ++ suffix) :=
      readHexGroup_render g _ (hb g (by simp)) (allColon_suffix_head tl suffix hsuf)
    have hrec := read_groups_allColon tl slots' 1 suffix
      (fun z hz => hb z (by simp [hz])) (by omega) (by omega) hsuf
    by_cases h2 : slots' + 1 ≥ 2
    · simp only [if_pos h2, readSep_zero, hipfail, hhexok, hrec]
    · simp only [if_neg h2, readSep_zero, hhexok, hrec]

lemma zeroRunAux_good (segs : List Nat) (rest : List Nat) : ∀ (i : Nat) (cur lng : Nat × Nat),
    segs.drop i = rest →
    (cur.2 = 0 ∨ cur.1 + cur.2 = i) →
    cur.1 + cur.2 ≤ segs.length →
    (segs.drop cur.1).take cur.2 = List.replicate cur.2 0 →
    lng.1 + lng.2 ≤ segs.length →
    (segs.drop lng.1).take lng.2 = List.replicate lng.2 0 →
    (V1.zeroRunAux rest i cur lng).1 + (V1.zeroRunAux rest i cur lng).2 ≤ segs.length ∧
    (segs.drop (V1.zeroRunAux rest i cur lng).1).take (V1.zeroRunAux rest i cur lng).2 =
      List.replicate (V1.zeroRunAux rest i cur lng).2 0 := by
  induction rest with
  | nil =>
    intro i cur lng _ _ _ _ h5 h6
    exact ⟨h5, h6⟩
  | cons seg rest' ih =>
    intro i cur lng hdrop hcur hc1 hc2 hl1 hl2
    have hi_lt : i < segs.length := by
      have hlen := congrArg List.length hdrop
      rw [List.length_drop, List.length_cons] at hlen
      omega
    have hdrop' : segs.drop (i + 1) = rest' := by
      have h1 : (segs.drop i).drop 1 = rest' := by
        rw [hdrop]
        rfl
      rw [List.drop_drop] at h1
      exact h1
    by_cases hz : seg = 0
    · simp only [V1.zeroRunAux, if_pos hz]
      have hB : (if cur.2 = 0 then i else cur.1) + (cur.2 + 1) ≤ segs.length := by
        by_cases hz2 : cur.2 = 0
        · simp only [if_pos hz2]
          omega
        · have hci : cur.1 + cur.2 = i := by
            rcases hcur with h | h
            · exact absurd h hz2
            · exact h
          simp only [if_neg hz2]
          omega
      have hC : (segs.drop (if cur.2 = 0 then i else cur.1)).take (cur.2 + 1) =
          List.replicate (cur.2 + 1) 0 := by
        by_cases hz2 : cur.2 = 0
        · rw [if_pos hz2, hdrop, hz2]
          simp [hz]
        · have hci : cur.1 + cur.2 = i := by
            rcases hcur with h | h
            · exact absurd h hz2
            · exact h
          rw [if_neg hz2]
          have hsplit : segs.drop cur.1 = List.replicate cur.2 0 ++ (seg :: rest') := by
            have hdd : List.drop cur.2 (List.drop cur.1 segs) = List.drop i segs := by
              rw [List.drop_drop]
              try congr 1
              all_goals omega
            conv_lhs => rw [← List.take_append_drop cur.2 (segs.drop cur.1)]
            rw [hc2, hdd, hdrop]
          rw [hsplit,
            show cur.2 + 1 = (List.replicate cur.2 (0 : Nat)).length + 1 from by simp,
            List.take_append]
          simp [hz, List.replicate_succ']
      refine ih (i + 1) ((if cur.2 = 0 then i else cur.1), cur.2 + 1) _ hdrop'
        (Or.inr ?_) hB hC ?_ ?_
      · by_cases hz2 : cur.2 = 0
        · simp only [if_pos hz2]
          omega
        · have hci : cur.1 + cur.2 = i := by
            rcases hcur with h | h
            · exact absurd h hz2
            · exact h
          simp only [if_neg hz2]
          omega
      · by_cases hgt : cur.2 + 1 > lng.2
        · rw [if_pos hgt]
          exact hB
        · rw [if_neg hgt]
          exact hl1
      · by_cases hgt : cur.2 + 1 > lng.2
        · rw [if_pos hgt]
          exact hC
        · rw [if_neg hgt]
          exact hl2
    · simp only [V1.zeroRunAux, if_neg hz]
      exact ih (i + 1) (0, 0) lng hdrop' (Or.inl rfl) (by simp) (by simp) hl1 hl2

lemma longestZeroRun_good (segs : List Nat) :
    (V1.longestZeroRun segs).1 + (V1.longestZeroRun segs).2 ≤ segs.length ∧
    (segs.drop (V1.longestZeroRun segs).1).take (V1.longestZeroRun segs).2 =
      List.replicate (V1.longestZeroRun segs).2 0 := by
  unfold V1.longestZeroRun
  exact zeroRunAux_good segs segs 0 (0, 0) (0, 0) (by simp) (Or.inl rfl)
    (by simp) (by simp) (by simp) (by simp)

lemma segs_decompose (segs : List Nat) (z1 z2 : Nat) (hle : z1 + z2 ≤ segs.length)
    (hslice : (segs.drop z1).take z2 = List.replicate z2 0) :
    segs = segs.take z1 ++ (List.replicate z2 0 ++ segs.drop (z1 + z2)) := by
  conv_lhs => rw [← List.take_append_drop z1 segs]
  congr 1
  have hdd : List.drop z2 (List.drop z1 segs) = List.drop (z1 + z2) segs := by
    rw [List.drop_drop]
    try congr 1
    all_goals omega
  conv_lhs => rw [← List.take_append_drop z2 (segs.drop z1)]
  rw [hslice, hdd]

lemma read_groups_step (slots i : Nat) (h2 : 2 ≤ slots) (s : List Nat) :
    V1.read_groups slots i s =
      match V1.readSep i V1.read_ipv4_addr s with
      | some (v4, rest) =>
          ([u16_from_be v4.a v4.b, u16_from_be v4.c v4.d], true, rest)
      | none =>
        match V1.readSep i V1.readHexGroup s with
        | none => ([], false, s)
        | some (g, rest) =>
          (g :: (V1.read_groups (slots - 1) (i + 1) rest).1,
            (V1.read_groups (slots - 1) (i + 1) rest).2.1,
            (V1.read_groups (slots - 1) (i + 1) rest).2.2) := by
  obtain ⟨slots', rfl⟩ : ∃ k, slots = k + 1 := ⟨slots - 1, by omega⟩
  conv_lhs => unfold V1.read_groups
  rw [if_pos (by omega)]
  simp only [Nat.add_sub_cancel]

lemma list_head_tail (xs : List Nat) (n : Nat) (hxs : xs.length = n + 1) :
    ∃ y t, xs = y :: t ∧ t.length = n := by
  cases xs with
  | nil => simp at hxs
  | cons y t =>
    refine ⟨y, t, rfl, ?_⟩
    simpa using hxs

lemma list_len8 (xs : List Nat) (hxs : xs.length = 8) :
    ∃ b0 b1 b2 b3 b4 b5 b6 b7, xs = [b0, b1, b2, b3, b4, b5, b6, b7] := by
  obtain ⟨b0, t0, rfl, k0⟩ := list_head_tail xs 7 hxs
  obtain ⟨b1, t1, rfl, k1⟩ := list_head_tail t0 6 k0
  obtain ⟨b2, t2, rfl, k2⟩ := list_head_tail t1 5 k1
  obtain ⟨b3, t3, rfl, k3⟩ := list_head_tail t2 4 k2
  obtain ⟨b4, t4, rfl, k4⟩ := list_head_tail t3 3 k3
  obtain ⟨b5, t5, rfl, k5⟩ := list_head_tail t4 2 k4
  obtain ⟨b6, t6, rfl, k6⟩ := list_head_tail t5 1 k5
  obtain ⟨b7, t7, rfl, k7⟩ := list_head_tail t6 0 k6
  rw [List.eq_nil_of_length_eq_zero k7]
  exact ⟨b0, b1, b2, b3, b4, b5, b6, b7, rfl⟩

lemma head58_not_hex (u : List Nat) :
    ∀ y, (58 :: u).head? = some y → V1.isHexDigit y = false := by
  intro y hy
  have h := Option.some.inj hy
  rw [← h]
  decide

lemma u16_split (n : Nat) (h : n < 65536) : u16_from_be (n / 256) (n % 256) = n := by
  unfold u16_from_be
  omega

lemma read_ipv6_eval (s head rest2 : List Nat)
    (hrg : V1.read_groups 8 0 s = (head, false, 58 :: 58 :: rest2))
    (hne : ¬(head.length = 8))
    (tail rest3 : List Nat) (b : Bool)
    (hrg2 : V1.read_groups (8 - (head.length + 1)) 0 rest2 = (tail, b, rest3)) :
    V1.read_ipv6_addr s =
      some (⟨head ++ List.replicate (8 - head.length - tail.length) 0 ++ tail⟩, rest3) := by
  unfold V1.read_ipv6_addr
  simp only [hrg]
  rw [if_neg hne]
  rw [if_neg (by simp)]
  simp only [expectByte_cons]
  simp only [hrg2]

lemma read_ipv6_mapped (s6 s7 : Nat) (hs6 : s6 < 65536) (hs7 : s7 < 65536) :
    V1.read_ipv6_addr ([58, 58, 102, 102, 102, 102, 58] ++
      V1.Ipv4Addr.display ⟨s6 / 256, s6 % 256, s7 / 256, s7 % 256⟩) =
      some (⟨[0, 0, 0, 0, 0, 65535, s6, s7]⟩, []) := by
  have hwfA : (⟨s6 / 256, s6 % 256, s7 / 256, s7 % 256⟩ : V1.Ipv4Addr).wf :=
    ⟨show s6 / 256 < 256 by omega, show s6 % 256 < 256 by omega,
      show s7 / 256 < 256 by omega, show s7 % 256 < 256 by omega⟩
  have hv4 : V1.read_ipv4_addr
      (V1.Ipv4Addr.display ⟨s6 / 256, s6 % 256, s7 / 256, s7 % 256⟩) =
      some ((⟨s6 / 256, s6 % 256, s7 / 256, s7 % 256⟩ : V1.Ipv4Addr), []) := by
    have h := read_ipv4_render _ [] hwfA (by intro y hy; simp at hy)
    rwa [List.append_nil] at h
  obtain ⟨D, hD⟩ : ∃ D, V1.Ipv4Addr.display
      (⟨s6 / 256, s6 % 256, s7 / 256, s7 % 256⟩ : V1.Ipv4Addr) = D := ⟨_, rfl⟩
  rw [hD] at hv4 ⊢
  have hinput : ([58, 58, 102, 102, 102, 102, 58] : List Nat) ++ D =
      58 :: 58 :: (102 :: 102 :: 102 :: 102 :: 58 :: D) := by simp
  rw [hinput]
  have hrgA : V1.read_groups 8 0 (58 :: 58 :: (102 :: 102 :: 102 :: 102 :: 58 :: D)) =
      ([], false, 58 :: 58 :: (102 :: 102 :: 102 :: 102 :: 58 :: D)) := by
    have h := read_groups_joinColon [] 8
      (58 :: 58 :: (102 :: 102 :: 102 :: 102 :: 58 :: D))
      (by simp) (by simp) (Or.inr ⟨_, rfl⟩)
    simpa [V1.joinColon] using h
  have hfail4 : V1.read_ipv4_addr (102 :: 102 :: 102 :: 102 :: 58 :: D) = none := by
    apply read_ipv4_fail
    rw [List.dropWhile_cons, if_neg (by decide)]
    simp
  have hhexg : V1.readHexGroup (102 :: 102 :: 102 :: 102 :: 58 :: D) =
      some (65535, 58 :: D) := by
    have h := readHexGroup_render 65535 (58 :: D) (by omega) (head58_not_hex D)
    exact h
  have hrec : V1.read_groups 6 1 (58 :: D) = ([s6, s7], true, []) := by
    rw [read_groups_step 6 1 (by omega)]
    rw [readSep_pos 1 (by omega)]
    rw [hv4]
    show ([u16_from_be (s6 / 256) (s6 % 256), u16_from_be (s7 / 256) (s7 % 256)],
      true, ([] : List Nat)) = ([s6, s7], true, ([] : List Nat))
    rw [u16_split s6 hs6, u16_split s7 hs7]
  have hrg7 : V1.read_groups 7 0 (102 :: 102 :: 102 :: 102 :: 58 :: D) =
      ([65535, s6, s7], true, []) := by
    rw [read_groups_step 7 0 (by omega)]
    simp only [readSep_zero, hfail4, hhexg, Nat.reduceSub, Nat.reduceAdd, hrec]
  have hfinal := read_ipv6_eval (58 :: 58 :: (102 :: 102 :: 102 :: 102 :: 58 :: D))
    [] (102 :: 102 :: 102 :: 102 :: 58 :: D) hrgA (by decide)
    [65535, s6, s7] [] true hrg7
  rw [hfinal]
  rfl

lemma read_ipv6_render (segs : List Nat) (hlen : segs.length = 8)
    (hb : ∀ g ∈ segs, g < 65536) :
    V1.read_ipv6_addr (V1.Ipv6Addr.display ⟨segs⟩) = some (⟨segs⟩, []) := by
  have hproj : (⟨segs⟩ : V1.Ipv6Addr).segments = segs := rfl
  unfold V1.Ipv6Addr.display
  rw [hproj]
  split_ifs with h1 h2 h3 h4
  · rw [h1]
    decide
  · rw [h2]
    decide
  · obtain ⟨s0, s1, s2, s3, s4, s5, s6, s7, rfl⟩ := list_len8 segs hlen
    have h3' : [s0, s1, s2, s3, s4, s5] = ([0, 0, 0, 0, 0, 65535] : List Nat) := h3
    simp at h3'
    obtain ⟨rfl, rfl, rfl, rfl, rfl, rfl⟩ := h3'
    have hg6 : ([0, 0, 0, 0, 0, 65535, s6, s7] : List Nat).getD 6 0 = s6 := rfl
    have hg7 : ([0, 0, 0, 0, 0, 65535, s6, s7] : List Nat).getD 7 0 = s7 := rfl
    rw [hg6, hg7]
    exact read_ipv6_mapped s6 s7 (hb s6 (by simp)) (hb s7 (by simp))
  · have good := longestZeroRun_good segs
    set z := V1.longestZeroRun segs with hzdef
    by_cases h4 : z.2 > 1
    · rw [if_pos h4]
      have hz18 : z.1 + z.2 ≤ 8 := by
        have := good.1
        omega
      have htl : (segs.take z.1).length = z.1 := by
        rw [List.length_take]
        omega
      have hdl : (segs.drop (z.1 + z.2)).length = 8 - (z.1 + z.2) := by
        rw [List.length_drop]
        omega
      have hrgA : V1.read_groups 8 0 (V1.joinColon (segs.take z.1) ++
          (58 :: 58 :: V1.joinColon (segs.drop (z.1 + z.2)))) =
          (segs.take z.1, false, 58 :: 58 :: V1.joinColon (segs.drop (z.1 + z.2))) :=
        read_groups_joinColon _ 8 _ (fun g hg => hb g (List.take_subset _ _ hg))
          (by rw [htl]; omega) (Or.inr ⟨_, rfl⟩)
      have hrgB : V1.read_groups (8 - ((segs.take z.1).length + 1)) 0
          (V1.joinColon (segs.drop (z.1 + z.2))) =
          (segs.drop (z.1 + z.2), false, []) := by
        have h := read_groups_joinColon (segs.drop (z.1 + z.2))
          (8 - ((segs.take z.1).length + 1)) []
          (fun g hg => hb g (List.drop_subset _ _ hg)) (by rw [hdl, htl]; omega)
          (Or.inl rfl)
        simpa using h
      have heval := read_ipv6_eval _ _ _ hrgA (by rw [htl]; omega) _ _ _ hrgB
      simp only [List.append_assoc, List.cons_append, List.nil_append]
      rw [heval, htl, hdl]
      rw [show 8 - z.1 - (8 - (z.1 + z.2)) = z.2 from by omega]
      have hdec := segs_decompose segs z.1 z.2 good.1 good.2
      rw [List.append_assoc, ← hdec]
    · rw [if_neg h4]
      have hrg : V1.read_groups 8 0 (V1.joinColon segs) = (segs, false, []) := by
        have h := read_groups_joinColon segs 8 [] hb (by omega) (Or.inl rfl)
        simpa using h
      unfold V1.read_ipv6_addr
      simp only [hrg]
      rw [if_pos hlen]

lemma ipv6_from_str_display (segs : List Nat) (hlen : segs.length = 8)
    (hb : ∀ g ∈ segs, g < 65536) :
    V1.ipv6_from_str (V1.Ipv6Addr.display ⟨segs⟩) = some ⟨segs⟩ := by
  have h := read_ipv6_render segs hlen hb
  simp only [V1.ipv6_from_str, h]

lemma foldl_digits_le (ds : List Nat) : ∀ acc : Nat,
    acc ≤ ds.foldl (fun a x => a * 10 + (x - 48)) acc := by
  induction ds with
  | nil => intro acc; exact le_refl _
  | cons x rest ih =>
    intro acc
    exact le_trans (by omega) (ih (acc * 10 + (x - 48)))

lemma parseU16Digits_ok (ds : List Nat) : ∀ acc : Nat,
    (∀ x ∈ ds, V1.isDigit x = true) →
    ds.foldl (fun a x => a * 10 + (x - 48)) acc ≤ 65535 →
    V1.parseU16Digits ds acc = some (ds.foldl (fun a x => a * 10 + (x - 48)) acc) := by
  induction ds with
  | nil => intro acc _ _; rfl
  | cons x rest ih =>
    intro acc hd hb
    have hb' : rest.foldl (fun a x => a * 10 + (x - 48)) (acc * 10 + (x - 48)) ≤ 65535 := by
      simpa [List.foldl_cons] using hb
    have h1 := foldl_digits_le rest (acc * 10 + (x - 48))
    unfold V1.parseU16Digits
    rw [if_pos (hd x (by simp)), if_neg (by omega)]
    simp only [List.foldl_cons]
    exact ih _ (fun z hz => hd z (by simp [hz])) hb'

lemma parse_u16_render (n : Nat) (h : n < 65536) :
    V1.parse_u16 (V1.toDecimal n) = some n := by
  obtain ⟨d, rest0, heq, h48, h57, h49⟩ := toDecimal_head n
  have hmem : ∀ x ∈ V1.toDecimal n, V1.isDigit x = true := by
    intro x hx
    have := toDecimal_mem n x hx
    simp [V1.isDigit]
    omega
  have hfold : (V1.toDecimal n).foldl (fun a x => a * 10 + (x - 48)) 0 = n :=
    toDecimal_val n
  have hok := parseU16Digits_ok (V1.toDecimal n) 0 hmem (by rw [hfold]; omega)
  rw [hfold] at hok
  rw [heq] at hok hmem
  unfold V1.parse_u16
  rw [heq]
  split
  next r heq2 =>
    exfalso
    have := (List.cons.inj heq2).1
    omega
  next =>
    exact hok

lemma toDecimal_guard (n : Nat) :
    ¬((V1.toDecimal n).head? = some 48 ∧ V1.toDecimal n ≠ V1.ZERO) := by
  rintro ⟨hh, hne⟩
  rcases Nat.eq_zero_or_pos n with rfl | hpos
  · exact hne rfl
  · obtain ⟨d, rest, heq, h48, h57, h49⟩ := toDecimal_head n
    rw [heq] at hh
    have hd := Option.some.inj hh
    have h49' := h49 hpos
    omega

lemma parse_addresses_render {α : Type} (pa : List Nat → Option α) (A B : List Nat)
    (sa da : α) (p q : Nat) (hp : p < 65536) (hq : q < 65536)
    (ha : pa A = some sa) (hb : pa B = some da) :
    V1.parse_addresses pa [A, B, V1.toDecimal p, V1.toDecimal q] =
      .ok ((sa, da, p, q), []) := by
  simp only [V1.parse_addresses, ha, hb, if_neg (toDecimal_guard p),
    parse_u16_render p hp, if_neg (toDecimal_guard q), parse_u16_render q hq]

lemma ipv4_display_chars (ip : V1.Ipv4Addr) :
    ∀ c ∈ ip.display, (48 ≤ c ∧ c ≤ 57) ∨ c = 46 := by
  intro c hc
  unfold V1.Ipv4Addr.display at hc
  simp only [List.mem_append] at hc
  rcases hc with ((((((h | h) | h) | h) | h) | h) | h)
  · exact Or.inl (toDecimal_mem _ c h)
  · simp at h
    omega
  · exact Or.inl (toDecimal_mem _ c h)
  · simp at h
    omega
  · exact Or.inl (toDecimal_mem _ c h)
  · simp at h
    omega
  · exact Or.inl (toDecimal_mem _ c h)

lemma ipv6_display_chars (ip : V1.Ipv6Addr) :
    ∀ c ∈ ip.display, c = 58 ∨ V1.isHexDigit c = true ∨ c = 46 := by
  intro c hc
  unfold V1.Ipv6Addr.display at hc
  split_ifs at hc with h1 h2 h3
  · simp at hc
    exact Or.inl hc
  · simp at hc
    rcases hc with h | h
    · exact Or.inl h
    · subst h
      exact Or.inr (Or.inl (by decide))
  · simp only [List.mem_append] at hc
    rcases hc with h | h
    · simp at h
      rcases h with h58 | h102 | h58'
      · exact Or.inl h58
      · rw [h102]
        exact Or.inr (Or.inl (by decide))
      · exact Or.inl h58'
    · rcases ipv4_display_chars _ c h with hd | hd
      · refine Or.inr (Or.inl ?_)
        simp [V1.isHexDigit]
        omega
      · exact Or.inr (Or.inr hd)
  · by_cases h4 : (V1.longestZeroRun ip.segments).2 > 1
    · rw [if_pos h4] at hc
      simp only [List.mem_append] at hc
      rcases hc with (h | h) | h
      · rcases joinColon_mem _ c h with h' | h'
        · exact Or.inl h'
        · exact Or.inr (Or.inl h')
      · simp at h
        exact Or.inl h
      · rcases joinColon_mem _ c h with h' | h'
        · exact Or.inl h'
        · exact Or.inr (Or.inl h')
    · rw [if_neg h4] at hc
      rcases joinColon_mem _ c hc with h' | h'
      · exact Or.inl h'
      · exact Or.inr (Or.inl h')

lemma ipv4_display_len (ip : V1.Ipv4Addr) (hwf : ip.wf) :
    ip.display.length ≤ 15 := by
  obtain ⟨ha, hb, hc, hd⟩ := hwf
  have l1 := toDecimal_len ip.a 3 (by omega) (by omega)
  have l2 := toDecimal_len ip.b 3 (by omega) (by omega)
  have l3 := toDecimal_len ip.c 3 (by omega) (by omega)
  have l4 := toDecimal_len ip.d 3 (by omega) (by omega)
  unfold V1.Ipv4Addr.display
  simp only [List.length_append, List.length_cons, List.length_nil]
  omega

lemma allColon_len (gs : List Nat) (hb : ∀ g ∈ gs, g < 65536) :
    (V1.allColon gs).length ≤ 5 * gs.length := by
  induction gs with
  | nil => simp [V1.allColon]
  | cons g tl ih =>
    rw [allColon_cons]
    have h1 := toHex_len g 4 (by omega) (by
      have := hb g (by simp)
      omega)
    have h2 := ih (fun z hz => hb z (by simp [hz]))
    simp only [List.length_cons, List.length_append]
    omega

lemma joinColon_len (gs : List Nat) (hb : ∀ g ∈ gs, g < 65536) :
    (V1.joinColon gs).length ≤ 4 + 5 * (gs.length - 1) := by
  cases gs with
  | nil => simp [V1.joinColon]
  | cons g tl =>
    rw [joinColon_cons]
    have h1 := toHex_len g 4 (by omega) (by
      have := hb g (by simp)
      omega)
    have h2 := allColon_len tl (fun z hz => hb z (by simp [hz]))
    simp only [List.length_cons, List.length_append]
    omega

lemma ipv6_display_len (ip : V1.Ipv6Addr) (hwf : ip.wf) :
    ip.display.length ≤ 39 := by
  obtain ⟨hlen, hb⟩ := hwf
  unfold V1.Ipv6Addr.display
  split_ifs with h1 h2 h3
  · simp
  · simp
  · obtain ⟨s0, s1, s2, s3, s4, s5, s6, s7, hseg⟩ := list_len8 ip.segments hlen
    rw [hseg] at hb ⊢
    have hg6 : ([s0, s1, s2, s3, s4, s5, s6, s7] : List Nat).getD 6 0 = s6 := rfl
    have hg7 : ([s0, s1, s2, s3, s4, s5, s6, s7] : List Nat).getD 7 0 = s7 := rfl
    rw [hg6, hg7]
    have hs6 : s6 < 65536 := hb s6 (by simp)
    have hs7 : s7 < 65536 := hb s7 (by simp)
    have hA : (⟨s6 / 256, s6 % 256, s7 / 256, s7 % 256⟩ : V1.Ipv4Addr).wf :=
      ⟨show s6 / 256 < 256 by omega, show s6 % 256 < 256 by omega,
        show s7 / 256 < 256 by omega, show s7 % 256 < 256 by omega⟩
    have hd := ipv4_display_len _ hA
    simp only [List.length_append, List.length_cons, List.length_nil]
    omega
  · have good := longestZeroRun_good ip.segments
    set z := V1.longestZeroRun ip.segments with hzdef
    by_cases h4 : z.2 > 1
    · rw [if_pos h4]
      have hz18 : z.1 + z.2 ≤ 8 := by
        have := good.1
        omega
      have htl : (ip.segments.take z.1).length = z.1 := by
        rw [List.length_take]
        omega
      have hdl : (ip.segments.drop (z.1 + z.2)).length = 8 - (z.1 + z.2) := by
        rw [List.length_drop]
        omega
      have hj1 := joinColon_len (ip.segments.take z.1)
        (fun g hg => hb g (List.take_subset _ _ hg))
      have hj2 := joinColon_len (ip.segments.drop (z.1 + z.2))
        (fun g hg => hb g (List.drop_subset _ _ hg))
      rw [htl] at hj1
      rw [hdl] at hj2
      simp only [List.length_append, List.length_cons, List.length_nil]
      omega
    · rw [if_neg h4]
      have hj := joinColon_len ip.segments hb
      rw [hlen] at hj
      omega

lemma splitFirst_append (x y : List Nat) (hx : ∀ c ∈ x, c ≠ 32) :
    V1.splitFirst 32 (x ++ 32 :: y) = some (x, y) := by
  induction x with
  | nil => simp [V1.splitFirst]
  | cons c x' ih =>
    have hc := hx c (by simp)
    simp only [List.cons_append]
    unfold V1.splitFirst
    rw [if_neg hc, ih (fun z hz => hx z (by simp [hz]))]
    rfl

lemma splitn_step (m n : Nat) (hm : m = n + 2) (x y : List Nat)
    (hx : ∀ c ∈ x, c ≠ 32) :
    V1.splitn m 32 (x ++ 32 :: y) = x :: V1.splitn (n + 1) 32 y := by
  subst hm
  conv_lhs => unfold V1.splitn
  rw [splitFirst_append x y hx]

lemma splitn_one (s : List Nat) : V1.splitn (0 + 1) 32 s = [s] := rfl

lemma findSuffix_append_crlf (body : List Nat) (h13 : ∀ c ∈ body, c ≠ 13) :
    V1.findSuffix (body ++ [13, 10]) = some body.length := by
  induction body with
  | nil => rfl
  | cons x rest ih =>
    have hx := h13 x (by simp)
    simp only [List.cons_append]
    unfold V1.findSuffix
    rw [if_neg (by rintro ⟨h, _⟩; exact hx h)]
    rw [ih (fun z hz => h13 z (by simp [hz]))]
    simp

lemma ipv4_display_ne (ip : V1.Ipv4Addr) :
    (∀ c ∈ ip.display, c ≠ 32) ∧ (∀ c ∈ ip.display, c ≠ 13) := by
  refine ⟨?_, ?_⟩ <;> intro c hc <;> rcases ipv4_display_chars ip c hc with h | h <;>
    omega

lemma ipv6_display_ne (ip : V1.Ipv6Addr) :
    (∀ c ∈ ip.display, c ≠ 32) ∧ (∀ c ∈ ip.display, c ≠ 13) := by
  refine ⟨?_, ?_⟩ <;> intro c hc <;> rcases ipv6_display_chars ip c hc with h | h | h <;>
    first
      | omega
      | (simp [V1.isHexDigit] at h; omega)

lemma toDecimal_ne (n : Nat) :
    (∀ c ∈ V1.toDecimal n, c ≠ 32) ∧ (∀ c ∈ V1.toDecimal n, c ≠ 13) := by
  refine ⟨?_, ?_⟩ <;> intro c hc <;> have := toDecimal_mem n c hc <;> omega

lemma parse_header_ok_tcp4 (X f A B : List Nat) (sa da : V1.Ipv4Addr) (sp dp : Nat)
    (hf : ¬(f.length > V1.MAX_LENGTH))
    (hsplit : V1.splitn V1.PARTS V1.SEPARATOR X =
      [V1.PROTOCOL_PREFIX, V1.TCP4, A, B, V1.toDecimal sp, V1.toDecimal dp])
    (hA : V1.ipv4_from_str A = some sa) (hB : V1.ipv4_from_str B = some da)
    (hsp : sp < 65536) (hdp : dp < 65536) :
    V1.parse_header X f = .ok ⟨f, .Tcp4 ⟨sa, sp, da, dp⟩⟩ := by
  have hpa := parse_addresses_render V1.ipv4_from_str A B sa da sp dp hsp hdp hA hB
  unfold V1.parse_header
  rw [if_neg hf, hsplit]
  simp [hpa]

lemma parse_header_ok_tcp6 (X f A B : List Nat) (sa da : V1.Ipv6Addr) (sp dp : Nat)
    (hf : ¬(f.length > V1.MAX_LENGTH))
    (hsplit : V1.splitn V1.PARTS V1.SEPARATOR X =
      [V1.PROTOCOL_PREFIX, V1.TCP6, A, B, V1.toDecimal sp, V1.toDecimal dp])
    (hA : V1.ipv6_from_str A = some sa) (hB : V1.ipv6_from_str B = some da)
    (hsp : sp < 65536) (hdp : dp < 65536) :
    V1.parse_header X f = .ok ⟨f, .Tcp6 ⟨sa, sp, da, dp⟩⟩ := by
  have hpa := parse_addresses_render V1.ipv6_from_str A B sa da sp dp hsp hdp hA hB
  unfold V1.parse_header
  rw [if_neg hf, hsplit]
  simp [hpa]
  exact fun hcon => absurd hcon (by decide)

/-- Claim C7: v1 semantic round trip.  For every well-formed `Addresses` value
(Unknown, Tcp4 with octet-valued IPv4 addresses and 16-bit ports, Tcp6 with
eight-segment 16-bit IPv6 addresses and 16-bit ports), rendering it to its
canonical wire line (`Display`, CR LF included) and parsing that line with the
v1 parser succeeds and returns a header whose addresses equal the original
value. -/
theorem claim_C7_v1_round_trip (a : V1.Addresses) (h : a.wf) :
    V1.try_from a.display = .ok ⟨a.display, a⟩ := by
  cases a with
  | Unknown => decide
  | Tcp4 t =>
    obtain ⟨hsa, hda, hsp, hdp⟩ := h
    unfold V1.Addresses.display
    set X := V1.PROTOCOL_PREFIX ++ [V1.SEPARATOR] ++ V1.TCP4 ++ [V1.SEPARATOR] ++
      t.source_address.display ++ [V1.SEPARATOR] ++ t.destination_address.display ++
      [V1.SEPARATOR] ++ V1.toDecimal t.source_port ++ [V1.SEPARATOR] ++
      V1.toDecimal t.destination_port with hX
    have hne13 : ∀ c ∈ X, c ≠ 13 := by
      rw [hX]
      simp only [List.forall_mem_append]
      refine ⟨⟨⟨⟨⟨⟨⟨⟨⟨⟨?_, ?_⟩, ?_⟩, ?_⟩, ?_⟩, ?_⟩, ?_⟩, ?_⟩, ?_⟩, ?_⟩, ?_⟩
      all_goals first
        | decide
        | exact fun c hc => (ipv4_display_ne _).2 c hc
        | exact fun c hc => (toDecimal_ne _).2 c hc
    have hsplit : V1.splitn V1.PARTS V1.SEPARATOR X =
        [V1.PROTOCOL_PREFIX, V1.TCP4, t.source_address.display,
          t.destination_address.display, V1.toDecimal t.source_port,
          V1.toDecimal t.destination_port] := by
      rw [hX]
      simp only [V1.PARTS, V1.SEPARATOR, List.append_assoc, List.singleton_append,
        List.cons_append, List.nil_append]
      rw [splitn_step 6 4 rfl _ _ (by decide),
        splitn_step (4 + 1) 3 rfl _ _ (by decide),
        splitn_step (3 + 1) 2 rfl _ _ (fun c hc => (ipv4_display_ne _).1 c hc),
        splitn_step (2 + 1) 1 rfl _ _ (fun c hc => (ipv4_display_ne _).1 c hc),
        splitn_step (1 + 1) 0 rfl _ _ (fun c hc => (toDecimal_ne _).1 c hc),
        splitn_one]
    have hlA := ipv4_display_len t.source_address hsa
    have hlB := ipv4_display_len t.destination_address hda
    have hlP := toDecimal_len t.source_port 5 (by omega) (by omega)
    have hlQ := toDecimal_len t.destination_port 5 (by omega) (by omega)
    have hflen : (X ++ V1.PROTOCOL_SUFFIX).length ≤ 107 := by
      rw [hX]
      simp only [V1.PROTOCOL_PREFIX, V1.TCP4, V1.SEPARATOR, V1.PROTOCOL_SUFFIX,
        List.length_append, List.length_cons, List.length_nil]
      omega
    have hfs : V1.findSuffix (X ++ V1.PROTOCOL_SUFFIX) = some X.length :=
      findSuffix_append_crlf X hne13
    unfold V1.try_from
    simp only [hfs]
    have htake1 : (X ++ V1.PROTOCOL_SUFFIX).take X.length = X := List.take_left X _
    have htake2 : (X ++ V1.PROTOCOL_SUFFIX).take
        (X.length + V1.PROTOCOL_SUFFIX.length) = X ++ V1.PROTOCOL_SUFFIX :=
      List.take_of_length_le (by simp [List.length_append])
    rw [htake1, htake2]
    exact parse_header_ok_tcp4 X (X ++ V1.PROTOCOL_SUFFIX)
      t.source_address.display t.destination_address.display
      t.source_address t.destination_address t.source_port t.destination_port
      (by simp only [V1.MAX_LENGTH]; omega) hsplit
      (ipv4_from_str_display t.source_address hsa)
      (ipv4_from_str_display t.destination_address hda) hsp hdp
  | Tcp6 t =>
    obtain ⟨hsa, hda, hsp, hdp⟩ := h
    unfold V1.Addresses.display
    set X := V1.PROTOCOL_PREFIX ++ [V1.SEPARATOR] ++ V1.TCP6 ++ [V1.SEPARATOR] ++
      t.source_address.display ++ [V1.SEPARATOR] ++ t.destination_address.display ++
      [V1.SEPARATOR] ++ V1.toDecimal t.source_port ++ [V1.SEPARATOR] ++
      V1.toDecimal t.destination_port with hX
    have hne13 : ∀ c ∈ X, c ≠ 13 := by
      rw [hX]
      simp only [List.forall_mem_append]
      refine ⟨⟨⟨⟨⟨⟨⟨⟨⟨⟨?_, ?_⟩, ?_⟩, ?_⟩, ?_⟩, ?_⟩, ?_⟩, ?_⟩, ?_⟩, ?_⟩, ?_⟩
      all_goals first
        | decide
        | exact fun c hc => (ipv6_display_ne _).2 c hc
        | exact fun c hc => (toDecimal_ne _).2 c hc
    have hsplit : V1.splitn V1.PARTS V1.SEPARATOR X =
        [V1.PROTOCOL_PREFIX, V1.TCP6, t.source_address.display,
          t.destination_address.display, V1.toDecimal t.source_port,
          V1.toDecimal t.destination_port] := by
      rw [hX]
      simp only [V1.PARTS, V1.SEPARATOR, List.append_assoc, List.singleton_append,
        List.cons_append, List.nil_append]
      rw [splitn_step 6 4 rfl _ _ (by decide),
        splitn_step (4 + 1) 3 rfl _ _ (by decide),
        splitn_step (3 + 1) 2 rfl _ _ (fun c hc => (ipv6_display_ne _).1 c hc),
        splitn_step (2 + 1) 1 rfl _ _ (fun c hc => (ipv6_display_ne _).1 c hc),
        splitn_step (1 + 1) 0 rfl _ _ (fun c hc => (toDecimal_ne _).1 c hc),
        splitn_one]
    have hlA := ipv6_display_len t.source_address hsa
    have hlB := ipv6_display_len t.destination_address hda
    have hlP := toDecimal_len t.source_port 5 (by omega) (by omega)
    have hlQ := toDecimal_len t.destination_port 5 (by omega) (by omega)
    have hflen : (X ++ V1.PROTOCOL_SUFFIX).length ≤ 107 := by
      rw [hX]
      simp only [V1.PROTOCOL_PREFIX, V1.TCP6, V1.SEPARATOR, V1.PROTOCOL_SUFFIX,
        List.length_append, List.length_cons, List.length_nil]
      omega
    have hfs : V1.findSuffix (X ++ V1.PROTOCOL_SUFFIX) = some X.length :=
      findSuffix_append_crlf X hne13
    unfold V1.try_from
    simp only [hfs]
    have htake1 : (X ++ V1.PROTOCOL_SUFFIX).take X.length = X := List.take_left X _
    have htake2 : (X ++ V1.PROTOCOL_SUFFIX).take
        (X.length + V1.PROTOCOL_SUFFIX.length) = X ++ V1.PROTOCOL_SUFFIX :=
      List.take_of_length_le (by simp [List.length_append])
    rw [htake1, htake2]
    have hA6 : V1.ipv6_from_str t.source_address.display = some t.source_address :=
      ipv6_from_str_display t.source_address.segments hsa.1 hsa.2
    have hB6 : V1.ipv6_from_str t.destination_address.display =
        some t.destination_address :=
      ipv6_from_str_display t.destination_address.segments hda.1 hda.2
    exact parse_header_ok_tcp6 X (X ++ V1.PROTOCOL_SUFFIX)
      t.source_address.display t.destination_address.display
      t.source_address t.destination_address t.source_port t.destination_port
      (by simp only [V1.MAX_LENGTH]; omega) hsplit hA6 hB6 hsp hdp

/-- Witness for C7 at the concrete value
Tcp4 127.0.0.1:65535 -> 192.168.1.1:80. -/
theorem claim_C7_witness :
    (V1.Addresses.Tcp4 ⟨⟨127, 0, 0, 1⟩, 65535, ⟨192, 168, 1, 1⟩, 80⟩).wf ∧
    V1.try_from (V1.Addresses.Tcp4
        ⟨⟨127, 0, 0, 1⟩, 65535, ⟨192, 168, 1, 1⟩, 80⟩).display =
      .ok ⟨(V1.Addresses.Tcp4 ⟨⟨127, 0, 0, 1⟩, 65535, ⟨192, 168, 1, 1⟩, 80⟩).display,
        V1.Addresses.Tcp4 ⟨⟨127, 0, 0, 1⟩, 65535, ⟨192, 168, 1, 1⟩, 80⟩⟩ :=
  ⟨by decide, claim_C7_v1_round_trip
    (V1.Addresses.Tcp4 ⟨⟨127, 0, 0, 1⟩, 65535, ⟨192, 168, 1, 1⟩, 80⟩) (by decide)⟩
